import Mathlib

/-!
Verification of the renderer core of `screen_patch_display.py`:
the wire-protocol parser (`parse_message`), the per-tick coalescer
(`_drain_and_apply`), and the cell state machine (text / bar / ring
widgets with their clamped values).  Every definition below is a direct
shallow embedding of the corresponding Python function.
-/

namespace PatchDisplay

/-! ## Configuration constants (module header of screen_patch_display.py) -/

def DEFAULT_ROWS : Int := 11

def COLS_PER_ROW : List Int := [4, 4, 4, 8, 4, 4, 4, 8, 4, 8, 8]

def BAR_ROWS : List Int := [3, 7]

def RING_OUTER_ARC_WIDTH : Int := 10

def RING_INNER_ARC_WIDTH : Int := 27

def MAX_APPLIES_PER_TICK : Nat := 50

/-! ## Character-list string helpers (kernel-computable equivalents of
Python's `str.upper`, `str.lower`, `str.strip`, `str.rstrip`,
`str.startswith`) -/

def strUpper (s : String) : String := ⟨s.data.map Char.toUpper⟩

def strLower (s : String) : String := ⟨s.data.map Char.toLower⟩

def strTrim (s : String) : String :=
  ⟨((s.data.dropWhile Char.isWhitespace).reverse.dropWhile Char.isWhitespace).reverse⟩

def strRstripSemi (s : String) : String :=
  ⟨(s.data.reverse.dropWhile (· = ';')).reverse⟩

def strStartsWithHash (s : String) : Bool :=
  match s.data with
  | '#' :: _ => true
  | _ => false

/-! ## Color utilities -/

def isHexDigitChar (ch : Char) : Bool :=
  ('0' ≤ ch ∧ ch ≤ '9') ∨ ('a' ≤ ch ∧ ch ≤ 'f') ∨ ('A' ≤ ch ∧ ch ≤ 'F')

/-- Embedding of `validate_color` of the source: empty is invalid; a `#`-string is valid
iff it has length 4, 7 or 9 and only hex digits after `#`; any other
non-empty string is treated as a named color and is valid. -/
def validate_color (color : String) : Bool :=
  if color = "" then false
  else if strStartsWithHash color then
    (color.length = 4 || color.length = 7 || color.length = 9)
      && (color.data.drop 1).all isHexDigitChar
  else true

/-! ## Integer token parsing (Python `int(tok)`) -/

def digitsToNat : List Char → Option Nat
  | [] => none
  | l =>
    if l.all (fun ch => '0' ≤ ch ∧ ch ≤ '9') then
      some (l.foldl (fun acc ch => acc * 10 + (ch.toNat - '0'.toNat)) 0)
    else none

/-- Model of Python `int(s)` on a whitespace-free token: optional sign then
decimal digits; anything else raises `ValueError` (here: `none`). -/
def toIntOpt (s : String) : Option Int :=
  match s.data with
  | [] => none
  | '-' :: rest => (digitsToNat rest).map (fun n => -(n : Int))
  | '+' :: rest => (digitsToNat rest).map (fun n => (n : Int))
  | l => (digitsToNat l).map (fun n => (n : Int))

/-! ## Parsed messages (the tuples returned by `parse_message`) -/

inductive Msg where
  | arcValue (r c v1 v2 : Int)
  | barValue (r c value : Int)
  | alignCell (r c : Int) (align : String)
  | bgCell (r c : Int) (bg : String)
  | ringStyle (r c : Int) (fg_out fg_in bg : String) (size_px w_out w_in : Int)
  | ringValue (r c outer inner : Int) (text : Option String)
  | ringSet (r c outer inner : Int) (fg_out fg_in bg : String) (size_px w_out w_in : Int)
  | setCell (r c : Int) (fg bg : String) (align : Option String) (text : String)
deriving DecidableEq, Repr

/-- Embedding of `" ".join(parts).rstrip(";")`. -/
def joinStrip (l : List String) : String :=
  strRstripSemi (String.intercalate " " l)

/-- Shallow embedding of `parse_message`, taking the already-split token
list (`parts = line.split()`).  The Python function is a chain of guarded
branches on `parts[0].upper()` and the token count, with a trailing
implicit-SET branch guarded only by `len(parts) >= 5`; any `int()` failure
inside a taken branch returns `None`. -/
def parse_message (parts : List String) : Option Msg :=
  match parts with
  | [] => none
  | headTok :: _ =>
    let head := strUpper headTok
    let g := fun i => parts.getD i ""
    if head = "ARC" ∧ parts.length ≥ 5 then do
      let c ← toIntOpt (g 1); let r ← toIntOpt (g 2)
      let v1 ← toIntOpt (g 3); let v2 ← toIntOpt (g 4)
      pure (.arcValue r c v1 v2)
    else if head = "BAR" ∧ parts.length ≥ 4 then do
      let r ← toIntOpt (g 1); let c ← toIntOpt (g 2)
      let value ← toIntOpt (g 3)
      pure (.barValue r c value)
    else if head = "ALIGN" ∧ parts.length ≥ 4 then do
      let r ← toIntOpt (g 1); let c ← toIntOpt (g 2)
      pure (.alignCell r c (g 3))
    else if head = "BG" ∧ parts.length ≥ 4 then do
      let r ← toIntOpt (g 1); let c ← toIntOpt (g 2)
      pure (.bgCell r c (g 3))
    else if head = "RING" ∧ parts.length ≥ 9 then do
      let c ← toIntOpt (g 1); let r ← toIntOpt (g 2)
      let size_px ← toIntOpt (g 6); let w_out ← toIntOpt (g 7); let w_in ← toIntOpt (g 8)
      pure (.ringStyle r c (g 3) (g 4) (g 5) size_px w_out w_in)
    else if head = "RINGVAL" ∧ parts.length ≥ 5 then do
      let c ← toIntOpt (g 1); let r ← toIntOpt (g 2)
      let outer ← toIntOpt (g 3); let inner ← toIntOpt (g 4)
      let text := if parts.length > 5 then some (joinStrip (parts.drop 5)) else none
      pure (.ringValue r c outer inner text)
    else if head = "RINGSET" ∧ parts.length ≥ 11 then do
      let c ← toIntOpt (g 1); let r ← toIntOpt (g 2)
      let outer ← toIntOpt (g 3); let inner ← toIntOpt (g 4)
      let size_px ← toIntOpt (g 8); let w_out ← toIntOpt (g 9); let w_in ← toIntOpt (g 10)
      pure (.ringSet r c outer inner (g 5) (g 6) (g 7) size_px w_out w_in)
    else if parts.length ≥ 5 then do
      let c ← toIntOpt (g 0); let r ← toIntOpt (g 1)
      if parts.length ≥ 6 then
        pure (.setCell r c (g 2) (g 3) (some (g 4)) (joinStrip (parts.drop 5)))
      else
        pure (.setCell r c (g 2) (g 3) none (joinStrip (parts.drop 4)))
    else none

/-! ## The coalescer: pending map and per-tick application
(`PatchDisplayScreen._drain_and_apply`) -/

/-- The seven-plus-one key classes used for `pending_latest` keys
(`"BG"`, `"ALIGN"`, `"BAR"`, `"RING_SET"`, `"RING_STYLE"`, `"RING_VALUE"`,
`"ARC"`, `"SET"`). -/
inductive Kind where
  | BG | ALIGN | BAR | RING_SET | RING_STYLE | RING_VALUE | ARC | SET
deriving DecidableEq, Repr

/-- Position of each class in the application order of `_drain_and_apply`
(the eight successive `for key, … in list(self.pending_latest.items())`
loops). -/
def classIdx : Kind → Nat
  | .BG => 0
  | .ALIGN => 1
  | .BAR => 2
  | .RING_SET => 3
  | .RING_STYLE => 4
  | .RING_VALUE => 5
  | .ARC => 6
  | .SET => 7

def classOrder : List Kind :=
  [.BG, .ALIGN, .BAR, .RING_SET, .RING_STYLE, .RING_VALUE, .ARC, .SET]

/-- The payload stored in `pending_latest` for each key class. -/
inductive Payload where
  | bar (value : Int)
  | bgCell (bg : String)
  | alignCell (align : String)
  | setCell (text fg bg : String) (align : Option String)
  | ringStyle (fg_out fg_in bg : String) (size_px w_out w_in : Int)
  | ringValue (outer inner : Int) (text : Option String)
  | ringSet (outer inner : Int) (fg_out fg_in bg : String) (size_px w_out w_in : Int)
  | arc (v1 v2 : Int)
deriving DecidableEq, Repr

/-- One entry of `pending_latest`: key `(kind, r, c)` plus its payload. -/
structure Entry where
  kind : Kind
  r : Int
  c : Int
  payload : Payload
deriving DecidableEq, Repr

def sameKey (a b : Entry) : Bool :=
  a.kind == b.kind && a.r == b.r && a.c == b.c

/-- The drain phase of `_drain_and_apply`: each dequeued message becomes a
`pending_latest[(kind, r, c)] = payload` assignment. -/
def msgEntry : Msg → Entry
  | .barValue r c value => ⟨.BAR, r, c, .bar value⟩
  | .bgCell r c bg => ⟨.BG, r, c, .bgCell bg⟩
  | .alignCell r c align => ⟨.ALIGN, r, c, .alignCell align⟩
  | .setCell r c fg bg align text => ⟨.SET, r, c, .setCell text fg bg align⟩
  | .ringStyle r c fg_out fg_in bg size_px w_out w_in =>
      ⟨.RING_STYLE, r, c, .ringStyle fg_out fg_in bg size_px w_out w_in⟩
  | .ringValue r c outer inner text => ⟨.RING_VALUE, r, c, .ringValue outer inner text⟩
  | .ringSet r c outer inner fg_out fg_in bg size_px w_out w_in =>
      ⟨.RING_SET, r, c, .ringSet outer inner fg_out fg_in bg size_px w_out w_in⟩
  | .arcValue r c v1 v2 => ⟨.ARC, r, c, .arc v1 v2⟩

/-- Embedding of `pending_latest[key] = payload` on an insertion-ordered dict: an
existing key keeps its position and gets the new payload; a new key is
appended. -/
def insertPending : List Entry → Entry → List Entry
  | [], e => [e]
  | x :: xs, e => if sameKey x e then e :: xs else x :: insertPending xs e

/-- Draining the whole queue into the pending map. -/
def drainQueue (msgs : List Msg) (pending : List Entry) : List Entry :=
  msgs.foldl (fun acc m => insertPending acc (msgEntry m)) pending

/-- One `for key, payload in list(self.pending_latest.items())` loop for
class `k`: walk the map in order; stop as soon as `applied >= cap`
(`break`); apply-and-delete entries of class `k`, skip the rest.
Returns (remaining map, applied counter, applied entries in order). -/
def runClass (k : Kind) (cap : Nat) : List Entry → Nat → List Entry × Nat × List Entry
  | [], applied => ([], applied, [])
  | e :: rest, applied =>
    if cap ≤ applied then (e :: rest, applied, [])
    else if e.kind = k then
      let (rem, a, t) := runClass k cap rest (applied + 1)
      (rem, a, e :: t)
    else
      let (rem, a, t) := runClass k cap rest applied
      (e :: rem, a, t)

/-- The eight class loops in their source order. -/
def runClasses (cap : Nat) : List Kind → List Entry → Nat → List Entry × Nat × List Entry
  | [], pending, applied => (pending, applied, [])
  | k :: ks, pending, applied =>
    let (p1, a1, t1) := runClass k cap pending applied
    let (p2, a2, t2) := runClasses cap ks p1 a1
    (p2, a2, t1 ++ t2)

/-- The apply phase of one tick: the pending entries applied this tick (in
application order) and the entries left for the next tick. -/
def applyPhase (cap : Nat) (pending : List Entry) : List Entry × List Entry :=
  let (rem, _, trace) := runClasses cap classOrder pending 0
  (rem, trace)

/-! ## Value clamping (`HorizontalBar._clip_value` / `DualRing._clip_value`) -/

/-- Embedding of `_clip_value`: `int(v)` with `ValueError`/`TypeError` mapped to 0
(modelled as `none`), then `max(0, min(127, v))`. -/
def clip_value : Option Int → Int
  | none => 0
  | some v => max 0 (min 127 v)

/-! ## DualRing widget state -/

structure RingState where
  display_size : Int
  bg : String
  fg_outer : String
  fg_inner : String
  w_outer : Int
  w_inner : Int
  text_color : String
  outer_val : Int
  inner_val : Int
  extra_arc1_val : Int
  extra_arc2_val : Int
  center_override : Option String
deriving DecidableEq, Repr

/-- Embedding of `DualRing.__init__` (colors are stored unvalidated; values start at 0). -/
def DualRing_init (size : Int) (fg_outer fg_inner bg : String)
    (w_outer w_inner : Int) (text_color : String) : RingState :=
  { display_size := size, bg := bg, fg_outer := fg_outer, fg_inner := fg_inner,
    w_outer := w_outer, w_inner := w_inner, text_color := text_color,
    outer_val := 0, inner_val := 0, extra_arc1_val := 0, extra_arc2_val := 0,
    center_override := none }

/-- Embedding of `DualRing.set_values`. -/
def ring_set_values (rg : RingState) (outer_v inner_v : Int) : RingState :=
  { rg with outer_val := clip_value (some outer_v),
            inner_val := clip_value (some inner_v) }

/-- Embedding of `DualRing.set_extra_arcs`. -/
def ring_set_extra_arcs (rg : RingState) (val1 val2 : Int) : RingState :=
  { rg with extra_arc1_val := clip_value (some val1),
            extra_arc2_val := clip_value (some val2) }

/-- Embedding of `DualRing.set_center_text`: `self._center_override = text if text else None`
(both `None` and the empty string store `None`). -/
def ring_set_center_text (rg : RingState) (text : Option String) : RingState :=
  { rg with center_override :=
      match text with
      | some t => if t = "" then none else some t
      | none => none }

/-- Embedding of `DualRing.restyle` (colors validated, widths taken as-is). -/
def ring_restyle (rg : RingState) (fg_outer fg_inner bg : Option String)
    (w_outer w_inner : Option Int) (text_color : Option String) : RingState :=
  let rg := match fg_outer with
    | some s => if validate_color s then { rg with fg_outer := s } else rg
    | none => rg
  let rg := match fg_inner with
    | some s => if validate_color s then { rg with fg_inner := s } else rg
    | none => rg
  let rg := match w_outer with
    | some w => { rg with w_outer := w }
    | none => rg
  let rg := match w_inner with
    | some w => { rg with w_inner := w }
    | none => rg
  let rg := match text_color with
    | some s => if validate_color s then { rg with text_color := s } else rg
    | none => rg
  let rg := match bg with
    | some s => if validate_color s then { rg with bg := s } else rg
    | none => rg
  rg

/-- Embedding of `DualRing._update_label`: the text shown in the ring center —
the override if set, otherwise `str(max(1, int(self._inner_val)))`. -/
def ring_center_display (rg : RingState) : String :=
  match rg.center_override with
  | some t => t
  | none => toString (max 1 rg.inner_val)

/-! ## Per-cell screen state -/

structure CellState where
  label_managed : Bool
  var_text : String
  lbl_fg : String
  lbl_bg : String
  lbl_anchor : String
  last_text : Option String
  last_fg : Option String
  last_bg : Option String
  last_anchor : Option String
  ring_holder : Bool
  ring : Option RingState
  bar_holder : Bool
  bar : Option Int
deriving DecidableEq, Repr

/-- Cell state right after `_build_ui` / `_init_caches`: the label is packed
with white-on-black and row-dependent anchor, all caches are `None`, and no
bar or ring widgets exist. -/
def init_cell (r : Int) : CellState :=
  { label_managed := true, var_text := "",
    lbl_fg := "white", lbl_bg := "black",
    lbl_anchor := if r = 2 ∨ r = 6 then "n" else "w",
    last_text := none, last_fg := none, last_bg := none, last_anchor := none,
    ring_holder := false, ring := none, bar_holder := false, bar := none }

def Screen : Type := Int → Int → CellState

def initScreen : Screen := fun r _ => init_cell r

def updateCell (s : Screen) (r c : Int) (f : CellState → CellState) : Screen :=
  fun r' c' => if r' = r ∧ c' = c then f (s r' c') else s r' c'

/-- The guard `0 <= r < self.rows and 0 <= c < self.cols_per_row[r]`
that begins every cell-mutating method. -/
def inBoundsB (r c : Int) : Bool :=
  decide (0 ≤ r) && decide (r < DEFAULT_ROWS)
    && decide (0 ≤ c) && decide (c < COLS_PER_ROW.getD r.toNat 0)

/-- Observable Surface mutations (tk calls) issued by the cell model. -/
inductive SurfEvent where
  | label_forget (r c : Int)
  | label_pack (r c : Int)
  | create_bar (r c : Int)
  | bar_value_ev (r c v : Int)
  | create_ring_holder (r c : Int)
  | create_ring (r c : Int)
  | ring_restyle_ev (r c : Int)
  | ring_values_ev (r c outer inner : Int)
  | ring_center_ev (r c : Int) (t : Option String)
  | ring_extras_ev (r c v1 v2 : Int)
  | destroy_ring (r c : Int)
  | destroy_bar (r c : Int)
  | var_set_ev (r c : Int) (t : String)
  | cfg_fg (r c : Int) (color : String)
  | cfg_bg (r c : Int) (color : String)
  | cfg_anchor (r c : Int) (a : String)
deriving DecidableEq, Repr

/-! ## Screen methods -/

/-- Embedding of `PatchDisplayScreen._ensure_bars`: bounds and bar-row guards, forget the
label if visible, create holder and bar (initial value 0) if absent. -/
def ensure_bars (s : Screen) (r c : Int) : Screen × List SurfEvent :=
  if inBoundsB r c = false then (s, [])
  else if r ∉ BAR_ROWS then (s, [])
  else
    let cell := s r c
    let cell1 := if cell.label_managed then { cell with label_managed := false } else cell
    let ev1 := if cell.label_managed then [SurfEvent.label_forget r c] else []
    let cell2 :=
      if cell1.bar_holder = false then { cell1 with bar_holder := true, bar := some 0 }
      else cell1
    let ev2 := if cell1.bar_holder = false then [SurfEvent.create_bar r c] else []
    (updateCell s r c (fun _ => cell2), ev1 ++ ev2)

/-- Embedding of `PatchDisplayScreen.set_bar_value`. -/
def set_bar_value (s : Screen) (r c value : Int) : Screen × List SurfEvent :=
  if inBoundsB r c = false then (s, [])
  else if r ∉ BAR_ROWS then (s, [])
  else
    let pre := ensure_bars s r c
    match (pre.1 r c).bar with
    | some _ =>
      (updateCell pre.1 r c (fun cell => { cell with bar := some (clip_value (some value)) }),
       pre.2 ++ [SurfEvent.bar_value_ev r c value])
    | none => pre

/-- Embedding of `PatchDisplayScreen._ensure_ring`: forget the label, create the holder
if absent, then either create the `DualRing` — note the hardcoded
`size=260` and `text_color="#e3e3e3"`; the `size_px` argument is unused —
or restyle the existing one. -/
def ensure_ring (s : Screen) (r c : Int) (fg_out fg_in bg : String)
    (size_px w_out w_in : Int) : Screen × List SurfEvent :=
  if inBoundsB r c = false then (s, [])
  else
    let cell := s r c
    let cell1 := if cell.label_managed then { cell with label_managed := false } else cell
    let ev1 := if cell.label_managed then [SurfEvent.label_forget r c] else []
    let cell2 := if cell1.ring_holder = false then { cell1 with ring_holder := true } else cell1
    let ev2 := if cell1.ring_holder = false then [SurfEvent.create_ring_holder r c] else []
    match cell2.ring with
    | none =>
      let rg := DualRing_init 260 fg_out fg_in bg w_out w_in "#e3e3e3"
      (updateCell s r c (fun _ => { cell2 with ring := some rg }),
       ev1 ++ ev2 ++ [SurfEvent.create_ring r c])
    | some rg =>
      let rg := ring_restyle rg (some fg_out) (some fg_in) (some bg)
                  (some w_out) (some w_in) none
      (updateCell s r c (fun _ => { cell2 with ring := some rg }),
       ev1 ++ ev2 ++ [SurfEvent.ring_restyle_ev r c])

/-- Embedding of `PatchDisplayScreen.set_ring_style`. -/
def set_ring_style (s : Screen) (r c : Int) (fg_out fg_in bg : String)
    (size_px w_out w_in : Int) : Screen × List SurfEvent :=
  ensure_ring s r c fg_out fg_in bg size_px w_out w_in

/-- Embedding of `PatchDisplayScreen.set_ring_value`: on a never-styled cell first
initialize the default ring style, then set both values. -/
def set_ring_value (s : Screen) (r c outer inner : Int) : Screen × List SurfEvent :=
  if inBoundsB r c = false then (s, [])
  else
    let pre :=
      match (s r c).ring with
      | none => ensure_ring s r c "#606060" "#ffffff" "#000000" 280
                  RING_OUTER_ARC_WIDTH RING_INNER_ARC_WIDTH
      | some _ => (s, [])
    match (pre.1 r c).ring with
    | some rg =>
      (updateCell pre.1 r c (fun cell => { cell with ring := some (ring_set_values rg outer inner) }),
       pre.2 ++ [SurfEvent.ring_values_ev r c outer inner])
    | none => pre

/-- Embedding of `PatchDisplayScreen.set_ring_text`. -/
def set_ring_text (s : Screen) (r c : Int) (text : Option String) : Screen × List SurfEvent :=
  if inBoundsB r c = false then (s, [])
  else
    let pre :=
      match (s r c).ring with
      | none => ensure_ring s r c "#606060" "#ffffff" "#000000" 280
                  RING_OUTER_ARC_WIDTH RING_INNER_ARC_WIDTH
      | some _ => (s, [])
    match (pre.1 r c).ring with
    | some rg =>
      (updateCell pre.1 r c (fun cell => { cell with ring := some (ring_set_center_text rg text) }),
       pre.2 ++ [SurfEvent.ring_center_ev r c text])
    | none => pre

/-- Embedding of `PatchDisplayScreen.set_ring_all`. -/
def set_ring_all (s : Screen) (r c outer inner : Int) (fg_out fg_in bg : String)
    (size_px w_out w_in : Int) : Screen × List SurfEvent :=
  let pre := ensure_ring s r c fg_out fg_in bg size_px w_out w_in
  let post := set_ring_value pre.1 r c outer inner
  (post.1, pre.2 ++ post.2)

/-- Embedding of `PatchDisplayScreen.set_ring_extra_arcs`. -/
def set_ring_extra_arcs (s : Screen) (r c val1 val2 : Int) : Screen × List SurfEvent :=
  if inBoundsB r c = false then (s, [])
  else
    let pre :=
      match (s r c).ring with
      | none => ensure_ring s r c "#606060" "#ffffff" "#000000" 280
                  RING_OUTER_ARC_WIDTH RING_INNER_ARC_WIDTH
      | some _ => (s, [])
    match (pre.1 r c).ring with
    | some rg =>
      (updateCell pre.1 r c (fun cell => { cell with ring := some (ring_set_extra_arcs rg val1 val2) }),
       pre.2 ++ [SurfEvent.ring_extras_ev r c val1 val2])
    | none => pre

/-- Embedding of `PatchDisplayScreen._map_anchor`. -/
def map_anchor : Option String → String
  | none => "w"
  | some s =>
    if s = "" then "w"
    else
      let a := strLower (strTrim s)
      if a = "l" ∨ a = "left" then "w"
      else if a = "c" ∨ a = "center" ∨ a = "centre" ∨ a = "mid" ∨ a = "middle" then "center"
      else if a = "r" ∨ a = "right" then "e"
      else "w"

/-- The teardown block at the top of `PatchDisplayScreen.set_cell`, run
when a non-empty text arrives: destroy the ring widget and holder, destroy
the bar widget and holder, re-pack the label. -/
def teardown_widgets (r c : Int) (cell : CellState) : CellState × List SurfEvent :=
  let cellA := if cell.ring.isSome then { cell with ring := none, ring_holder := false }
               else cell
  let evA := if cell.ring.isSome ∧ cell.ring_holder then [SurfEvent.destroy_ring r c] else []
  let cellB := if cellA.bar_holder then { cellA with bar_holder := false, bar := none }
               else cellA
  let evB := if cellA.bar_holder then [SurfEvent.destroy_bar r c] else []
  let cellC := if cellB.label_managed = false then { cellB with label_managed := true }
               else cellB
  let evC := if cellB.label_managed = false then [SurfEvent.label_pack r c] else []
  (cellC, evA ++ evB ++ evC)

/-- The teardown guard of `set_cell`: the widgets are torn down only when a
non-empty text arrives (`if text is not None and text != ""`). -/
def set_cell_teardown (r c : Int) (text : Option String) (cell : CellState) :
    CellState × List SurfEvent :=
  match text with
  | some t => if t ≠ "" then teardown_widgets r c cell else (cell, [])
  | none => (cell, [])

/-- The text stage of `set_cell`: set the `StringVar` and the `last_text`
cache when the text differs from the cache. -/
def set_cell_text (r c : Int) (text : Option String) (cell : CellState) :
    CellState × List SurfEvent :=
  match text with
  | some t =>
    if cell.last_text ≠ some t then
      ({ cell with var_text := t, last_text := some t }, [SurfEvent.var_set_ev r c t])
    else (cell, [])
  | none => (cell, [])

/-- The foreground stage of `set_cell`: truthy, different from the cache,
and a valid color. -/
def set_cell_fg (r c : Int) (fg : Option String) (cell : CellState) :
    CellState × List SurfEvent :=
  match fg with
  | some f =>
    if f ≠ "" ∧ cell.last_fg ≠ some f then
      if validate_color f then
        ({ cell with lbl_fg := f, last_fg := some f }, [SurfEvent.cfg_fg r c f])
      else (cell, [])
    else (cell, [])
  | none => (cell, [])

/-- The background stage of `set_cell`. -/
def set_cell_bg (r c : Int) (bg : Option String) (cell : CellState) :
    CellState × List SurfEvent :=
  match bg with
  | some b =>
    if b ≠ "" ∧ cell.last_bg ≠ some b then
      if validate_color b then
        ({ cell with lbl_bg := b, last_bg := some b }, [SurfEvent.cfg_bg r c b])
      else (cell, [])
    else (cell, [])
  | none => (cell, [])

/-- The anchor stage of `set_cell`: map the align word and dedupe against
the `last_anchor` cache. -/
def set_cell_align (r c : Int) (align : Option String) (cell : CellState) :
    CellState × List SurfEvent :=
  match align with
  | some a =>
    if cell.last_anchor ≠ some (map_anchor (some a)) then
      ({ cell with lbl_anchor := map_anchor (some a),
                   last_anchor := some (map_anchor (some a)) },
       [SurfEvent.cfg_anchor r c (map_anchor (some a))])
    else (cell, [])
  | none => (cell, [])

/-- Embedding of `PatchDisplayScreen.set_cell`: a non-empty text tears down ring and bar
and re-packs the label; text / fg / bg / anchor are then each deduped
against the `last_*` caches (colors additionally validated). -/
def set_cell (s : Screen) (r c : Int) (text fg bg align : Option String) :
    Screen × List SurfEvent :=
  if inBoundsB r c = false then (s, [])
  else
    let cell := s r c
    let st1 := set_cell_teardown r c text cell
    let st2 := set_cell_text r c text st1.1
    let st3 := set_cell_fg r c fg st2.1
    let st4 := set_cell_bg r c bg st3.1
    let st5 := set_cell_align r c align st4.1
    (updateCell s r c (fun _ => st5.1),
     st1.2 ++ st2.2 ++ st3.2 ++ st4.2 ++ st5.2)

/-- Application of one pending entry, exactly as the corresponding branch
of the apply loops in `_drain_and_apply` does it. -/
def applyEntry (s : Screen) (e : Entry) : Screen × List SurfEvent :=
  match e.payload with
  | .bar value => set_bar_value s e.r e.c value
  | .bgCell bg => set_cell s e.r e.c none none (some bg) none
  | .alignCell align => set_cell s e.r e.c none none none (some align)
  | .setCell text fg bg align => set_cell s e.r e.c (some text) (some fg) (some bg) align
  | .ringStyle fg_out fg_in bg size_px w_out w_in =>
      set_ring_style s e.r e.c fg_out fg_in bg size_px w_out w_in
  | .ringValue outer inner text =>
      let pre := set_ring_value s e.r e.c outer inner
      match text with
      | some t =>
        let post := set_ring_text pre.1 e.r e.c (some t)
        (post.1, pre.2 ++ post.2)
      | none => pre
  | .ringSet outer inner fg_out fg_in bg size_px w_out w_in =>
      set_ring_all s e.r e.c outer inner fg_out fg_in bg size_px w_out w_in
  | .arc v1 v2 => set_ring_extra_arcs s e.r e.c v1 v2

/-- Screen after applying a list of entries in order. -/
def runEntries (s : Screen) (entries : List Entry) : Screen :=
  entries.foldl (fun acc e => (applyEntry acc e).1) s

/-- The pending map never holds two entries with the same `(kind, r, c)`
key (a Python dict invariant). -/
def keysUnique (m : List Entry) : Prop :=
  m.Pairwise (fun a b => sameKey a b = false)

/-- Modelled from the spec's words for comparison in the SET-disambiguation
claim: a token that "parses (case-insensitively) as one of
{l,left,c,center,centre,mid,middle,r,right}". -/
def isAlignWord (s : String) : Bool :=
  let a := strLower s
  a = "l" || a = "left" || a = "c" || a = "center" || a = "centre"
    || a = "mid" || a = "middle" || a = "r" || a = "right"

/-- All four stored ring values lie in `[0, 127]`. -/
def ringClamped (rg : RingState) : Prop :=
  (0 ≤ rg.outer_val ∧ rg.outer_val ≤ 127) ∧
  (0 ≤ rg.inner_val ∧ rg.inner_val ≤ 127) ∧
  (0 ≤ rg.extra_arc1_val ∧ rg.extra_arc1_val ≤ 127) ∧
  (0 ≤ rg.extra_arc2_val ∧ rg.extra_arc2_val ≤ 127)

/-- The clamp invariant for one cell: every stored numeric value (the bar
value and the four ring values) lies in `[0, 127]`. -/
def clampedCell (cell : CellState) : Prop :=
  (∀ v, cell.bar = some v → 0 ≤ v ∧ v ≤ 127) ∧
  (∀ rg, cell.ring = some rg → ringClamped rg)

/-- The clamp invariant for the whole screen. -/
def clampedScreen (s : Screen) : Prop := ∀ r c, clampedCell (s r c)

/-! ## Concrete example inputs used by the claim theorems -/

/-- Three same-cell entries in scrambled insertion order: a SET, a ring
value and a ring style for cell `(1,2)` (spec scenario 3 plus a text push). -/
def examplePending : List Entry :=
  [⟨.SET, 1, 2, .setCell "X" "#fff" "#000" none⟩,
   ⟨.RING_VALUE, 1, 2, .ringValue 10 20 none⟩,
   ⟨.RING_STYLE, 1, 2, .ringStyle "#aaa" "#bbb" "#000" 280 10 27⟩]

/-- Two hundred pending entries with pairwise-distinct `(kind, r, c)` keys. -/
def pending200 : List Entry :=
  (List.range 200).map (fun i => ⟨.SET, (i : Int), 0, .setCell "t" "#fff" "#000" none⟩)

/-! ## Coalescer lemmas -/

theorem runClass_spec (k : Kind) (cap : Nat) :
    ∀ (l : List Entry) (n : Nat),
      (runClass k cap l n).1.Sublist l ∧
      l.Perm ((runClass k cap l n).1 ++ (runClass k cap l n).2.2) ∧
      (runClass k cap l n).2.1 = n + (runClass k cap l n).2.2.length ∧
      (n ≤ cap → (runClass k cap l n).2.1 ≤ cap) ∧
      (∀ e ∈ (runClass k cap l n).2.2, e.kind = k) := by
  intro l
  induction l with
  | nil => intro n; simp [runClass]
  | cons e rest ih =>
    intro n
    by_cases hcap : cap ≤ n
    · simp [runClass, hcap]
    · by_cases hk : e.kind = k
      · obtain ⟨h1, h2, h3, h4, h5⟩ := ih (n + 1)
        rcases hx : runClass k cap rest (n + 1) with ⟨rem, a, t⟩
        rw [hx] at h1 h2 h3 h4 h5
        dsimp only at h1 h2 h3 h4 h5
        simp only [runClass, if_neg hcap, if_pos hk, hx]
        refine ⟨List.Sublist.cons e h1, ?_, ?_, ?_, ?_⟩
        · exact (h2.cons e).trans List.perm_middle.symm
        · simp only [List.length_cons]; omega
        · intro hn
          exact h4 (by omega)
        · intro x hmem
          rcases List.mem_cons.mp hmem with h | h
          · subst h; exact hk
          · exact h5 x h
      · obtain ⟨h1, h2, h3, h4, h5⟩ := ih n
        rcases hx : runClass k cap rest n with ⟨rem, a, t⟩
        rw [hx] at h1 h2 h3 h4 h5
        dsimp only at h1 h2 h3 h4 h5
        simp only [runClass, if_neg hcap, if_neg hk, hx]
        refine ⟨List.Sublist.cons₂ e h1, ?_, h3, h4, h5⟩
        simpa using h2.cons e

theorem runClasses_spec (cap : Nat) :
    ∀ (ks : List Kind) (l : List Entry) (n : Nat),
      (runClasses cap ks l n).1.Sublist l ∧
      l.Perm ((runClasses cap ks l n).1 ++ (runClasses cap ks l n).2.2) ∧
      (runClasses cap ks l n).2.1 = n + (runClasses cap ks l n).2.2.length ∧
      (n ≤ cap → (runClasses cap ks l n).2.1 ≤ cap) ∧
      (∀ e ∈ (runClasses cap ks l n).2.2, e.kind ∈ ks) := by
  intro ks
  induction ks with
  | nil => intro l n; simp [runClasses]
  | cons k ks ih =>
    intro l n
    rcases hx : runClass k cap l n with ⟨p1, a1, t1⟩
    obtain ⟨s1, s2, s3, s4, s5⟩ := runClass_spec k cap l n
    rw [hx] at s1 s2 s3 s4 s5
    dsimp only at s1 s2 s3 s4 s5
    rcases hy : runClasses cap ks p1 a1 with ⟨p2, a2, t2⟩
    obtain ⟨u1, u2, u3, u4, u5⟩ := ih p1 a1
    rw [hy] at u1 u2 u3 u4 u5
    dsimp only at u1 u2 u3 u4 u5
    simp only [runClasses, hx, hy]
    refine ⟨u1.trans s1, ?_, ?_, ?_, ?_⟩
    · have step1 : l.Perm ((p2 ++ t2) ++ t1) := s2.trans (u2.append_right t1)
      have step2 : ((p2 ++ t2) ++ t1).Perm (p2 ++ (t1 ++ t2)) := by
        rw [List.append_assoc]
        exact List.Perm.append_left p2 List.perm_append_comm
      exact step1.trans step2
    · simp only [List.length_append]; omega
    · intro hn
      exact u4 (s4 hn)
    · intro x hx'
      rcases List.mem_append.mp hx' with hx' | hx'
      · exact (s5 x hx') ▸ List.mem_cons_self k ks
      · exact List.mem_cons_of_mem k (u5 x hx')

theorem pairwise_const_kind (k : Kind) :
    ∀ (l : List Entry), (∀ e ∈ l, e.kind = k) →
      l.Pairwise (fun a b => classIdx a.kind ≤ classIdx b.kind) := by
  intro l
  induction l with
  | nil => intro _; exact List.Pairwise.nil
  | cons e rest ih =>
    intro h
    refine List.Pairwise.cons ?_ (ih fun x hx => h x (List.mem_cons_of_mem e hx))
    intro b hb
    rw [h e (List.mem_cons_self e rest), h b (List.mem_cons_of_mem e hb)]

theorem runClasses_trace_pairwise (cap : Nat) :
    ∀ (ks : List Kind) (l : List Entry) (n : Nat),
      ks.Pairwise (fun a b => classIdx a < classIdx b) →
      (runClasses cap ks l n).2.2.Pairwise
        (fun a b => classIdx a.kind ≤ classIdx b.kind) := by
  intro ks
  induction ks with
  | nil => intro l n _; simp [runClasses]
  | cons k ks ih =>
    intro l n hp
    rcases hx : runClass k cap l n with ⟨p1, a1, t1⟩
    rcases hy : runClasses cap ks p1 a1 with ⟨p2, a2, t2⟩
    simp only [runClasses, hx, hy]
    rw [List.pairwise_cons] at hp
    obtain ⟨hk_lt, hp'⟩ := hp
    have ht1 : ∀ e ∈ t1, e.kind = k := by
      have := (runClass_spec k cap l n).2.2.2.2
      rw [hx] at this; exact this
    have ht2kind : ∀ e ∈ t2, e.kind ∈ ks := by
      have := (runClasses_spec cap ks p1 a1).2.2.2.2
      rw [hy] at this; exact this
    have ht2 : t2.Pairwise (fun a b => classIdx a.kind ≤ classIdx b.kind) := by
      have := ih p1 a1 hp'
      rw [hy] at this; exact this
    rw [List.pairwise_append]
    refine ⟨pairwise_const_kind k t1 ht1, ht2, ?_⟩
    intro a ha b hb
    rw [ht1 a ha]
    exact le_of_lt (hk_lt _ (ht2kind b hb))

theorem applyPhase_eq (cap : Nat) (pending : List Entry) :
    applyPhase cap pending =
      ((runClasses cap classOrder pending 0).1,
       (runClasses cap classOrder pending 0).2.2) := by
  rcases hx : runClasses cap classOrder pending 0 with ⟨rem, a, t⟩
  simp [applyPhase, hx]

/-! ## Claim C1: class application order -/

/-- C1: every tick applies its pending entries in the fixed class order
BG, ALIGN, BAR, RING_SET, RING_STYLE, RING_VALUE, ARC, SET — the applied
trace is always monotone in the class index — and concretely, a pending
map holding a ring-style, a ring-value and a SET entry for the same cell
applies the style first, the value second and the text last. -/
theorem coalescer_class_order :
    (∀ (cap : Nat) (pending : List Entry),
        (applyPhase cap pending).2.Pairwise
          (fun a b => classIdx a.kind ≤ classIdx b.kind)) ∧
    applyPhase MAX_APPLIES_PER_TICK examplePending =
      ([],
       [⟨.RING_STYLE, 1, 2, .ringStyle "#aaa" "#bbb" "#000" 280 10 27⟩,
        ⟨.RING_VALUE, 1, 2, .ringValue 10 20 none⟩,
        ⟨.SET, 1, 2, .setCell "X" "#fff" "#000" none⟩]) := by
  constructor
  · intro cap pending
    rw [applyPhase_eq]
    exact runClasses_trace_pairwise cap classOrder pending 0 (by decide)
  · rfl

/-! ## Claim C3: per-tick work cap, removal and persistence -/

set_option maxRecDepth 20000 in
/-- C3: at most `cap` entries are applied per tick; the unapplied entries
persist unchanged (they form a sublist of the pending map) and no entry is
lost (the pending map is a permutation of remaining plus applied); with
200 distinct pending keys and the default cap of 50, exactly 50 entries
are applied and 150 remain. -/
theorem coalescer_cap_no_loss :
    (∀ (cap : Nat) (pending : List Entry),
        (applyPhase cap pending).2.length ≤ cap ∧
        (applyPhase cap pending).1.Sublist pending ∧
        pending.Perm ((applyPhase cap pending).1 ++ (applyPhase cap pending).2)) ∧
    (applyPhase MAX_APPLIES_PER_TICK pending200).2.length = 50 ∧
    (applyPhase MAX_APPLIES_PER_TICK pending200).1.length = 150 := by
  refine ⟨?_, ?_, ?_⟩
  · intro cap pending
    obtain ⟨s1, s2, s3, s4, s5⟩ := runClasses_spec cap classOrder pending 0
    rw [applyPhase_eq]
    dsimp only
    refine ⟨?_, s1, s2⟩
    have h := s4 (Nat.zero_le cap)
    omega
  · decide
  · decide

/-! ## Claim C2: last-write-wins in the pending map -/

theorem sameKey_iff (a b : Entry) :
    sameKey a b = true ↔ (a.kind = b.kind ∧ a.r = b.r ∧ a.c = b.c) := by
  simp [sameKey, Bool.and_eq_true, and_assoc]

theorem sameKey_comm (a b : Entry) : sameKey a b = sameKey b a := by
  rw [Bool.eq_iff_iff, sameKey_iff, sameKey_iff]
  constructor <;> rintro ⟨h1, h2, h3⟩ <;> exact ⟨h1.symm, h2.symm, h3.symm⟩

theorem mem_insertPending (e x : Entry) :
    ∀ (m : List Entry), x ∈ insertPending m e → x = e ∨ x ∈ m := by
  intro m
  induction m with
  | nil => intro h; simp [insertPending] at h; exact Or.inl h
  | cons a m' ih =>
    intro h
    by_cases hk : sameKey a e = true
    · simp only [insertPending, if_pos hk] at h
      rcases List.mem_cons.mp h with h | h
      · exact Or.inl h
      · exact Or.inr (List.mem_cons_of_mem a h)
    · simp only [insertPending, if_neg hk] at h
      rcases List.mem_cons.mp h with h | h
      · exact Or.inr (h ▸ List.mem_cons_self a m')
      · rcases ih h with h | h
        · exact Or.inl h
        · exact Or.inr (List.mem_cons_of_mem a h)

theorem self_mem_insertPending (e : Entry) :
    ∀ (m : List Entry), e ∈ insertPending m e := by
  intro m
  induction m with
  | nil => simp [insertPending]
  | cons a m' ih =>
    by_cases hk : sameKey a e = true
    · simp [insertPending, if_pos hk]
    · simp only [insertPending, if_neg hk]
      exact List.mem_cons_of_mem a ih

theorem mem_insertPending_of_mem (e x : Entry) (hne : sameKey x e = false) :
    ∀ (m : List Entry), x ∈ m → x ∈ insertPending m e := by
  intro m
  induction m with
  | nil => intro h; simp at h
  | cons a m' ih =>
    intro h
    rcases List.mem_cons.mp h with h | h
    · subst h
      have hne' : sameKey x e ≠ true := by rw [hne]; simp
      simp only [insertPending, if_neg hne']
      exact List.mem_cons_self x (insertPending m' e)
    · by_cases hk : sameKey a e = true
      · simp only [insertPending, if_pos hk]
        exact List.mem_cons_of_mem e h
      · simp only [insertPending, if_neg hk]
        exact List.mem_cons_of_mem a (ih h)

theorem keysUnique_insertPending (e : Entry) :
    ∀ (m : List Entry), keysUnique m → keysUnique (insertPending m e) := by
  intro m
  induction m with
  | nil => intro _; simp [insertPending, keysUnique]
  | cons a m' ih =>
    intro h
    rw [keysUnique, List.pairwise_cons] at h
    obtain ⟨ha, h'⟩ := h
    by_cases hk : sameKey a e = true
    · simp only [insertPending, if_pos hk]
      rw [keysUnique, List.pairwise_cons]
      refine ⟨?_, h'⟩
      intro x hx
      have hax := ha x hx
      rw [sameKey_iff] at hk
      rw [Bool.eq_false_iff] at hax ⊢
      intro hex
      apply hax
      rw [sameKey_iff] at hex ⊢
      exact ⟨hk.1.trans hex.1, hk.2.1.trans hex.2.1, hk.2.2.trans hex.2.2⟩
    · simp only [insertPending, if_neg hk]
      rw [keysUnique, List.pairwise_cons]
      refine ⟨?_, ih h'⟩
      intro x hx
      rcases mem_insertPending e x m' hx with hx | hx
      · subst hx
        exact Bool.eq_false_iff.mpr hk
      · exact ha x hx

theorem insertPending_key_eq (e : Entry) :
    ∀ (m : List Entry), keysUnique m →
      ∀ x ∈ insertPending m e, sameKey x e = true → x = e := by
  intro m
  induction m with
  | nil => intro _ x hx _; simpa [insertPending] using hx
  | cons a m' ih =>
    intro h x hx hkey
    rw [keysUnique, List.pairwise_cons] at h
    obtain ⟨ha, h'⟩ := h
    by_cases hk : sameKey a e = true
    · simp only [insertPending, if_pos hk] at hx
      rcases List.mem_cons.mp hx with hx | hx
      · exact hx
      · exfalso
        have hax := ha x hx
        rw [sameKey_iff] at hk hkey
        rw [Bool.eq_false_iff] at hax
        apply hax
        rw [sameKey_iff]
        exact ⟨hk.1.trans hkey.1.symm, hk.2.1.trans hkey.2.1.symm,
               hk.2.2.trans hkey.2.2.symm⟩
    · simp only [insertPending, if_neg hk] at hx
      rcases List.mem_cons.mp hx with hx | hx
      · exfalso; subst hx; exact hk hkey
      · exact ih h' x hx hkey

theorem keysUnique_drainQueue :
    ∀ (q : List Msg) (m : List Entry), keysUnique m → keysUnique (drainQueue q m) := by
  intro q
  induction q with
  | nil => intro m h; exact h
  | cons A q' ih =>
    intro m h
    have : drainQueue (A :: q') m = drainQueue q' (insertPending m (msgEntry A)) := by
      simp [drainQueue]
    rw [this]
    exact ih _ (keysUnique_insertPending (msgEntry A) m h)

theorem drainQueue_key_eq (B : Msg) :
    ∀ (q2 : List Msg) (m : List Entry), keysUnique m →
      (∀ x ∈ m, sameKey x (msgEntry B) = true → x = msgEntry B) →
      (∀ A ∈ q2, sameKey (msgEntry A) (msgEntry B) = false) →
      ∀ x ∈ drainQueue q2 m, sameKey x (msgEntry B) = true → x = msgEntry B := by
  intro q2
  induction q2 with
  | nil => intro m _ hprop _ x hx; exact hprop x hx
  | cons A q' ih =>
    intro m hu hprop hq x hx hkey
    have hstep : drainQueue (A :: q') m = drainQueue q' (insertPending m (msgEntry A)) := by
      simp [drainQueue]
    rw [hstep] at hx
    refine ih _ (keysUnique_insertPending (msgEntry A) m hu) ?_
      (fun A' hA' => hq A' (List.mem_cons_of_mem A hA')) x hx hkey
    intro y hy hykey
    rcases mem_insertPending (msgEntry A) y m hy with hy | hy
    · exfalso
      subst hy
      have := hq A (List.mem_cons_self A q')
      rw [this] at hykey
      exact Bool.false_ne_true hykey
    · exact hprop y hy hykey

theorem drainQueue_mem (B : Msg) :
    ∀ (q2 : List Msg) (m : List Entry), msgEntry B ∈ m →
      (∀ A ∈ q2, sameKey (msgEntry A) (msgEntry B) = false) →
      msgEntry B ∈ drainQueue q2 m := by
  intro q2
  induction q2 with
  | nil => intro m h _; exact h
  | cons A q' ih =>
    intro m h hq
    have hstep : drainQueue (A :: q') m = drainQueue q' (insertPending m (msgEntry A)) := by
      simp [drainQueue]
    rw [hstep]
    refine ih _ ?_ (fun A' hA' => hq A' (List.mem_cons_of_mem A hA'))
    refine mem_insertPending_of_mem (msgEntry A) (msgEntry B) ?_ m h
    rw [sameKey_comm]
    exact hq A (List.mem_cons_self A q')

theorem applyPhase_trace_subset (cap : Nat) (pending : List Entry) :
    ∀ x ∈ (applyPhase cap pending).2, x ∈ pending := by
  intro x hx
  obtain ⟨_, hperm, _, _, _⟩ := runClasses_spec cap classOrder pending 0
  rw [applyPhase_eq] at hx
  dsimp only at hx
  exact hperm.symm.subset (List.mem_append.mpr (Or.inr hx))

/-- C2: if command `B` is drained after command `A` of the same
`(kind, r, c)` key in the same tick (and no later same-key command
follows `B`), then exactly `B`'s payload is in the pending map: any map
entry and any applied entry for that key is `B`'s. -/
theorem coalescer_last_write_wins
    (m : List Entry) (q1 q2 : List Msg) (B : Msg) (cap : Nat)
    (hm : keysUnique m)
    (hq2 : ∀ A ∈ q2, sameKey (msgEntry A) (msgEntry B) = false) :
    msgEntry B ∈ drainQueue (q1 ++ B :: q2) m ∧
    (∀ x ∈ drainQueue (q1 ++ B :: q2) m,
        sameKey x (msgEntry B) = true → x = msgEntry B) ∧
    (∀ x ∈ (applyPhase cap (drainQueue (q1 ++ B :: q2) m)).2,
        sameKey x (msgEntry B) = true → x = msgEntry B) := by
  have hsplit : drainQueue (q1 ++ B :: q2) m =
      drainQueue q2 (insertPending (drainQueue q1 m) (msgEntry B)) := by
    simp [drainQueue, List.foldl_append]
  have hu1 : keysUnique (drainQueue q1 m) := keysUnique_drainQueue q1 m hm
  have hkey : ∀ x ∈ drainQueue (q1 ++ B :: q2) m,
      sameKey x (msgEntry B) = true → x = msgEntry B := by
    rw [hsplit]
    exact drainQueue_key_eq B q2 _ (keysUnique_insertPending (msgEntry B) _ hu1)
      (insertPending_key_eq (msgEntry B) _ hu1) hq2
  refine ⟨?_, hkey, ?_⟩
  · rw [hsplit]
    exact drainQueue_mem B q2 _ (self_mem_insertPending (msgEntry B) _) hq2
  · intro x hx hx'
    exact hkey x (applyPhase_trace_subset cap _ x hx) hx'

/-- Witness for C2: spec scenario 4 — `BAR 3 0 9999` then `BAR 3 0 -5`
in the same batch; the pending map holds the later command. -/
theorem coalescer_last_write_wins_witness :
    msgEntry (Msg.barValue 3 0 (-5)) ∈
      drainQueue ([Msg.barValue 3 0 9999] ++ Msg.barValue 3 0 (-5) :: []) [] :=
  (coalescer_last_write_wins [] [Msg.barValue 3 0 9999] [] (Msg.barValue 3 0 (-5)) 50
    (by simp [keysUnique]) (by simp)).1

/-! ## Claims C4 and C5: the implicit-SET branch and argument order -/

/-- The implicit-SET branch of `parse_message`: any line whose head is not
one of the seven keywords and that has at least five tokens parses as a SET;
with exactly five tokens the fifth token starts the text, with six or more
the fifth token is stored as the align field unconditionally. -/
theorem parse_set_implicit
    (t0 t1 f b x : String) (rest : List String) (cv rv : Int)
    (h0 : toIntOpt t0 = some cv) (h1 : toIntOpt t1 = some rv)
    (hA : strUpper t0 ≠ "ARC") (hB : strUpper t0 ≠ "BAR")
    (hG : strUpper t0 ≠ "ALIGN") (hBG : strUpper t0 ≠ "BG")
    (hR : strUpper t0 ≠ "RING") (hRV : strUpper t0 ≠ "RINGVAL")
    (hRS : strUpper t0 ≠ "RINGSET") :
    parse_message (t0 :: t1 :: f :: b :: x :: rest) =
      some (.setCell rv cv f b
        (if rest.isEmpty then none else some x)
        (if rest.isEmpty then joinStrip [x] else joinStrip rest)) := by
  cases rest with
  | nil =>
    simp [parse_message, h0, h1, hA, hB, hG, hBG, hR, hRV, hRS, List.getD]
  | cons y ys =>
    simp [parse_message, h0, h1, hA, hB, hG, hBG, hR, hRV, hRS, List.getD]

/-- C4 counterexample: the line `0 0 #fff #000 HELLO WORLD` has a fifth
token `HELLO` that does not parse as an alignment word, yet the parser
stores it as the align field and starts the text at the sixth token. -/
theorem set_fifth_token_counterexample :
    parse_message ["0", "0", "#fff", "#000", "HELLO", "WORLD"] =
      some (.setCell 0 0 "#fff" "#000" (some "HELLO") "WORLD") ∧
    isAlignWord "HELLO" = false := by
  exact ⟨by decide, by decide⟩

/-- C4 amended: for an implicit-SET line with at least five tokens, the
fifth token is treated as the align field iff the line has at least six
tokens — independently of whether it parses as an alignment word; with
exactly five tokens the fifth token is the start of the text. -/
theorem set_fifth_token_amended
    (t0 t1 f b x : String) (rest : List String) (cv rv : Int)
    (h0 : toIntOpt t0 = some cv) (h1 : toIntOpt t1 = some rv)
    (hA : strUpper t0 ≠ "ARC") (hB : strUpper t0 ≠ "BAR")
    (hG : strUpper t0 ≠ "ALIGN") (hBG : strUpper t0 ≠ "BG")
    (hR : strUpper t0 ≠ "RING") (hRV : strUpper t0 ≠ "RINGVAL")
    (hRS : strUpper t0 ≠ "RINGSET") :
    parse_message (t0 :: t1 :: f :: b :: x :: rest) =
      some (.setCell rv cv f b
        (if rest.isEmpty then none else some x)
        (if rest.isEmpty then joinStrip [x] else joinStrip rest)) ∧
    (¬ rest.isEmpty = true ↔ 6 ≤ (t0 :: t1 :: f :: b :: x :: rest).length) := by
  refine ⟨parse_set_implicit t0 t1 f b x rest cv rv h0 h1 hA hB hG hBG hR hRV hRS, ?_⟩
  cases rest <;> simp

/-- Witness for C4 amended at the five-token line `7 2 #fff #000 hi`. -/
theorem set_fifth_token_amended_witness :
    parse_message ["7", "2", "#fff", "#000", "hi"] =
      some (.setCell 2 7 "#fff" "#000" none (joinStrip ["hi"])) ∧
    (¬ ([] : List String).isEmpty = true ↔
      6 ≤ (["7", "2", "#fff", "#000", "hi"] : List String).length) :=
  set_fifth_token_amended "7" "2" "#fff" "#000" "hi" [] 7 2 (by decide) (by decide)
    (by decide) (by decide) (by decide) (by decide) (by decide) (by decide) (by decide)

/-- C5 counterexample: for the implicit-SET line `2 1 #fff #000 x` the
parser reads the FIRST integer token as the column and the SECOND as the
row: the parsed command is `Set(r=1, c=2, …)`, not `Set(r=2, c=1, …)`. -/
theorem row_col_order_counterexample :
    parse_message ["2", "1", "#fff", "#000", "x"] =
      some (.setCell 1 2 "#fff" "#000" none "x") ∧ (2 : Int) ≠ 1 := by
  exact ⟨by decide, by decide⟩

/-- C5 amended: `BG`, `ALIGN`, `BAR` read row then column; `RING`,
`RINGVAL`, `RINGSET`, `ARC` **and the implicit SET** read column then row. -/
theorem row_col_order_amended :
    (∀ (t1 t2 t3 : String) (a b v : Int),
        toIntOpt t1 = some a → toIntOpt t2 = some b → toIntOpt t3 = some v →
        parse_message ["BAR", t1, t2, t3] = some (.barValue a b v)) ∧
    (∀ (t1 t2 al : String) (a b : Int),
        toIntOpt t1 = some a → toIntOpt t2 = some b →
        parse_message ["ALIGN", t1, t2, al] = some (.alignCell a b al)) ∧
    (∀ (t1 t2 bgc : String) (a b : Int),
        toIntOpt t1 = some a → toIntOpt t2 = some b →
        parse_message ["BG", t1, t2, bgc] = some (.bgCell a b bgc)) ∧
    (∀ (t1 t2 t3 t4 : String) (a b v1 v2 : Int),
        toIntOpt t1 = some a → toIntOpt t2 = some b →
        toIntOpt t3 = some v1 → toIntOpt t4 = some v2 →
        parse_message ["ARC", t1, t2, t3, t4] = some (.arcValue b a v1 v2)) ∧
    (∀ (t1 t2 fo fi bgc t6 t7 t8 : String) (a b s w1 w2 : Int),
        toIntOpt t1 = some a → toIntOpt t2 = some b →
        toIntOpt t6 = some s → toIntOpt t7 = some w1 → toIntOpt t8 = some w2 →
        parse_message ["RING", t1, t2, fo, fi, bgc, t6, t7, t8] =
          some (.ringStyle b a fo fi bgc s w1 w2)) ∧
    (∀ (t1 t2 t3 t4 : String) (a b o i : Int),
        toIntOpt t1 = some a → toIntOpt t2 = some b →
        toIntOpt t3 = some o → toIntOpt t4 = some i →
        parse_message ["RINGVAL", t1, t2, t3, t4] = some (.ringValue b a o i none)) ∧
    (∀ (t1 t2 t3 t4 fo fi bgc t8 t9 t10 : String) (a b o i s w1 w2 : Int),
        toIntOpt t1 = some a → toIntOpt t2 = some b →
        toIntOpt t3 = some o → toIntOpt t4 = some i →
        toIntOpt t8 = some s → toIntOpt t9 = some w1 → toIntOpt t10 = some w2 →
        parse_message ["RINGSET", t1, t2, t3, t4, fo, fi, bgc, t8, t9, t10] =
          some (.ringSet b a o i fo fi bgc s w1 w2)) ∧
    (∀ (t0 t1 f bb x : String) (cv rv : Int),
        toIntOpt t0 = some cv → toIntOpt t1 = some rv →
        strUpper t0 ≠ "ARC" → strUpper t0 ≠ "BAR" → strUpper t0 ≠ "ALIGN" →
        strUpper t0 ≠ "BG" → strUpper t0 ≠ "RING" → strUpper t0 ≠ "RINGVAL" →
        strUpper t0 ≠ "RINGSET" →
        parse_message [t0, t1, f, bb, x] =
          some (.setCell rv cv f bb none (joinStrip [x]))) := by
  have eBAR : strUpper "BAR" = "BAR" := by decide
  have eALIGN : strUpper "ALIGN" = "ALIGN" := by decide
  have eBG : strUpper "BG" = "BG" := by decide
  have eARC : strUpper "ARC" = "ARC" := by decide
  have eRING : strUpper "RING" = "RING" := by decide
  have eRINGVAL : strUpper "RINGVAL" = "RINGVAL" := by decide
  have eRINGSET : strUpper "RINGSET" = "RINGSET" := by decide
  refine ⟨?_, ?_, ?_, ?_, ?_, ?_, ?_, ?_⟩
  · intro t1 t2 t3 a b v h1 h2 h3
    simp [parse_message, eBAR, h1, h2, h3, List.getD]
  · intro t1 t2 al a b h1 h2
    simp [parse_message, eALIGN, h1, h2, List.getD]
  · intro t1 t2 bgc a b h1 h2
    simp [parse_message, eBG, h1, h2, List.getD]
  · intro t1 t2 t3 t4 a b v1 v2 h1 h2 h3 h4
    simp [parse_message, eARC, h1, h2, h3, h4, List.getD]
  · intro t1 t2 fo fi bgc t6 t7 t8 a b s w1 w2 h1 h2 h6 h7 h8
    simp [parse_message, eRING, h1, h2, h6, h7, h8, List.getD]
  · intro t1 t2 t3 t4 a b o i h1 h2 h3 h4
    simp [parse_message, eRINGVAL, h1, h2, h3, h4, List.getD]
  · intro t1 t2 t3 t4 fo fi bgc t8 t9 t10 a b o i s w1 w2 h1 h2 h3 h4 h8 h9 h10
    simp [parse_message, eRINGSET, h1, h2, h3, h4, h8, h9, h10, List.getD]
  · intro t0 t1 f bb x cv rv h0 h1 hA hB hG hBG hR hRV hRS
    exact parse_set_implicit t0 t1 f bb x [] cv rv h0 h1 hA hB hG hBG hR hRV hRS

/-- Witness for C5 amended: a `BAR` line (row first) and a `RINGVAL` line
(column first) at concrete tokens. -/
theorem row_col_order_amended_witness :
    parse_message ["BAR", "3", "0", "50"] = some (.barValue 3 0 50) ∧
    parse_message ["RINGVAL", "0", "1", "64", "32"] = some (.ringValue 1 0 64 32 none) :=
  ⟨row_col_order_amended.1 "3" "0" "50" 3 0 50 (by decide) (by decide) (by decide),
   (row_col_order_amended.2.2.2.2.2.1) "0" "1" "64" "32" 0 1 64 32
     (by decide) (by decide) (by decide) (by decide)⟩

/-! ## Claim C8: bar-row guard -/

/-- C8: a `BAR` command on a non-bar row performs no Surface mutation — no
bar widget is created, no bar value is set — and the screen state is
unchanged. -/
theorem bar_row_guard (s : Screen) (r c value : Int) (hr : r ∉ BAR_ROWS) :
    set_bar_value s r c value = (s, []) := by
  unfold set_bar_value
  by_cases hb : inBoundsB r c = false
  · rw [if_pos hb]
  · rw [if_neg hb, if_pos hr]

/-- Witness for C8: spec scenario 4, `BAR 8 0 50` on the non-bar row 8. -/
theorem bar_row_guard_witness :
    set_bar_value initScreen 8 0 50 = (initScreen, []) :=
  bar_row_guard initScreen 8 0 50 (by decide)

/-! ## Ring-state lemmas for the ring claims -/

theorem ensure_ring_ring (s : Screen) (r c : Int) (fo fi bgc : String)
    (sz wo wi : Int) (hb : inBoundsB r c = true) :
    ((ensure_ring s r c fo fi bgc sz wo wi).1 r c).ring =
      match (s r c).ring with
      | none => some (DualRing_init 260 fo fi bgc wo wi "#e3e3e3")
      | some rg => some (ring_restyle rg (some fo) (some fi) (some bgc)
                           (some wo) (some wi) none) := by
  have hb' : ¬ (inBoundsB r c = false) := by simp [hb]
  unfold ensure_ring
  rw [if_neg hb']
  cases hring : (s r c).ring with
  | none =>
    by_cases h1 : (s r c).label_managed = true <;>
      by_cases h2 : (s r c).ring_holder = false <;>
        simp [updateCell, hring, h1, h2]
  | some rg =>
    by_cases h1 : (s r c).label_managed = true <;>
      by_cases h2 : (s r c).ring_holder = false <;>
        simp [updateCell, hring, h1, h2]

theorem set_ring_value_ring (s : Screen) (r c outer inner : Int)
    (hb : inBoundsB r c = true) :
    ((set_ring_value s r c outer inner).1 r c).ring =
      some (ring_set_values
        (match (s r c).ring with
         | none => DualRing_init 260 "#606060" "#ffffff" "#000000"
                     RING_OUTER_ARC_WIDTH RING_INNER_ARC_WIDTH "#e3e3e3"
         | some rg => rg) outer inner) := by
  have hb' : ¬ (inBoundsB r c = false) := by simp [hb]
  unfold set_ring_value
  rw [if_neg hb']
  cases hring : (s r c).ring with
  | none =>
    have he := ensure_ring_ring s r c "#606060" "#ffffff" "#000000" 280
      RING_OUTER_ARC_WIDTH RING_INNER_ARC_WIDTH hb
    rw [hring] at he
    simp only [hring, he, updateCell]
    simp
  | some rg =>
    simp only [hring, updateCell]
    simp [hring]

theorem set_ring_text_ring (s : Screen) (r c : Int) (text : Option String)
    (hb : inBoundsB r c = true) :
    ((set_ring_text s r c text).1 r c).ring =
      some (ring_set_center_text
        (match (s r c).ring with
         | none => DualRing_init 260 "#606060" "#ffffff" "#000000"
                     RING_OUTER_ARC_WIDTH RING_INNER_ARC_WIDTH "#e3e3e3"
         | some rg => rg) text) := by
  have hb' : ¬ (inBoundsB r c = false) := by simp [hb]
  unfold set_ring_text
  rw [if_neg hb']
  cases hring : (s r c).ring with
  | none =>
    have he := ensure_ring_ring s r c "#606060" "#ffffff" "#000000" 280
      RING_OUTER_ARC_WIDTH RING_INNER_ARC_WIDTH hb
    rw [hring] at he
    simp only [hring, he, updateCell]
    simp
  | some rg =>
    simp only [hring, updateCell]
    simp [hring]

/-! ## Claim C6: ring initialization by value only -/

/-- C6 counterexample: parsing and applying `RINGVAL 0 1 64 32` on a fresh
screen gives cell (1,0) a ring whose display size is 260, not the claimed
`size_px = 280`: `set_ring_value` passes 280 to `_ensure_ring`, but that
argument is unused and the `DualRing` is created with the hardcoded
`size=260`. -/
theorem ring_default_size_counterexample :
    (match parse_message ["RINGVAL", "0", "1", "64", "32"] with
     | some m => ((applyEntry initScreen (msgEntry m)).1 1 0).ring.map RingState.display_size
     | none => none) = some 260 ∧ (260 : Int) ≠ 280 :=
  ⟨by decide, by decide⟩

/-- C6 amended: a bare ring-value command on a never-styled in-bounds cell
switches it to a ring with the default style `fg_outer="#606060"`,
`fg_inner="#ffffff"`, `bg="#000000"`, `width_outer=10`, `width_inner=27`
(and the hardcoded center text color `#e3e3e3`), display size 260 (the 280
size hint is discarded), both values clipped into `[0,127]`, and no center
override, so the center shows `max(1, inner)` in decimal. -/
theorem ring_default_style_amended (s : Screen) (r c outer inner : Int)
    (hb : inBoundsB r c = true) (hring : (s r c).ring = none) :
    ((set_ring_value s r c outer inner).1 r c).ring =
      some { display_size := 260, bg := "#000000", fg_outer := "#606060",
             fg_inner := "#ffffff", w_outer := 10, w_inner := 27,
             text_color := "#e3e3e3",
             outer_val := clip_value (some outer),
             inner_val := clip_value (some inner),
             extra_arc1_val := 0, extra_arc2_val := 0,
             center_override := none } ∧
    (((set_ring_value s r c outer inner).1 r c).ring.map ring_center_display) =
      some (toString (max 1 (clip_value (some inner)))) := by
  have h := set_ring_value_ring s r c outer inner hb
  rw [hring] at h
  refine ⟨?_, ?_⟩
  · rw [h]; rfl
  · rw [h]
    simp [ring_center_display, ring_set_values, DualRing_init]

/-- Witness for C6 amended: `RINGVAL 0 1 64 32` on the fresh screen. -/
theorem ring_default_style_amended_witness :
    ((set_ring_value initScreen 1 0 64 32).1 1 0).ring =
      some { display_size := 260, bg := "#000000", fg_outer := "#606060",
             fg_inner := "#ffffff", w_outer := 10, w_inner := 27,
             text_color := "#e3e3e3", outer_val := clip_value (some 64),
             inner_val := clip_value (some 32), extra_arc1_val := 0,
             extra_arc2_val := 0, center_override := none } ∧
    (((set_ring_value initScreen 1 0 64 32).1 1 0).ring.map ring_center_display) =
      some (toString (max 1 (clip_value (some 32)))) :=
  ring_default_style_amended initScreen 1 0 64 32 (by decide) (by decide)

/-! ## Claim C9: BarValue on a cell in ring mode -/

theorem ensure_bars_fields (s : Screen) (r c : Int)
    (hb : inBoundsB r c = true) (hr : r ∈ BAR_ROWS) :
    ((ensure_bars s r c).1 r c).ring = (s r c).ring ∧
    ((ensure_bars s r c).1 r c).ring_holder = (s r c).ring_holder ∧
    ((ensure_bars s r c).1 r c).label_managed = false ∧
    ((ensure_bars s r c).1 r c).bar =
      (if (s r c).bar_holder = false then some 0 else (s r c).bar) ∧
    ((ensure_bars s r c).1 r c).bar_holder = true := by
  have hb' : ¬ (inBoundsB r c = false) := by simp [hb]
  have hr' : ¬ (r ∉ BAR_ROWS) := by simp [hr]
  unfold ensure_bars
  rw [if_neg hb', if_neg hr']
  by_cases h1 : (s r c).label_managed = true <;>
    by_cases h2 : (s r c).bar_holder = false <;>
      simp [updateCell, h1, h2]

/-- C9 counterexample: cell (3,0) is put into ring mode by
`RINGVAL 0 3 64 32`, then `BAR 3 0 50` is applied; the bar widget is
created and set to 50, yet the ring widget and its holder survive —
`_ensure_bars` only forgets the label and never touches the ring. -/
theorem bar_ring_teardown_counterexample :
    ((set_bar_value (set_ring_value initScreen 3 0 64 32).1 3 0 50).1 3 0).ring_holder
      = true ∧
    ((set_bar_value (set_ring_value initScreen 3 0 64 32).1 3 0 50).1 3 0).ring.isSome
      = true ∧
    ((set_bar_value (set_ring_value initScreen 3 0 64 32).1 3 0 50).1 3 0).bar
      = some 50 :=
  ⟨by decide, by decide, by decide⟩

/-- C9 amended: on a designated bar row, a BarValue on a cell currently in
ring mode hides the text label and creates/updates the bar widget with the
clipped value, but does NOT tear down the ring sub-state: the ring widget
and holder are left exactly as they were. -/
theorem bar_on_ring_amended (s : Screen) (r c v : Int)
    (hb : inBoundsB r c = true) (hr : r ∈ BAR_ROWS)
    (hcoh : (s r c).bar_holder = true → (s r c).bar ≠ none) :
    ((set_bar_value s r c v).1 r c).ring = (s r c).ring ∧
    ((set_bar_value s r c v).1 r c).ring_holder = (s r c).ring_holder ∧
    ((set_bar_value s r c v).1 r c).bar = some (clip_value (some v)) ∧
    ((set_bar_value s r c v).1 r c).label_managed = false := by
  have hb' : ¬ (inBoundsB r c = false) := by simp [hb]
  have hr' : ¬ (r ∉ BAR_ROWS) := by simp [hr]
  obtain ⟨e1, e2, e3, e4, e5⟩ := ensure_bars_fields s r c hb hr
  unfold set_bar_value
  rw [if_neg hb', if_neg hr']
  by_cases h2 : (s r c).bar_holder = false
  · rw [if_pos h2] at e4
    simp [updateCell, e4, e1, e2, e3]
  · rw [if_neg h2] at e4
    have hsome : ∃ b0, (s r c).bar = some b0 := by
      rcases hbar : (s r c).bar with _ | b0
      · exact absurd hbar (hcoh (by simpa using h2))
      · exact ⟨b0, rfl⟩
    obtain ⟨b0, hb0⟩ := hsome
    rw [hb0] at e4
    simp [updateCell, e4, e1, e2, e3]

/-- Witness for C9 amended on the concrete ring cell (3,0). -/
theorem bar_on_ring_amended_witness :
    ((set_bar_value (set_ring_value initScreen 3 0 64 32).1 3 0 50).1 3 0).ring
      = ((set_ring_value initScreen 3 0 64 32).1 3 0).ring ∧
    ((set_bar_value (set_ring_value initScreen 3 0 64 32).1 3 0 50).1 3 0).ring_holder
      = ((set_ring_value initScreen 3 0 64 32).1 3 0).ring_holder ∧
    ((set_bar_value (set_ring_value initScreen 3 0 64 32).1 3 0 50).1 3 0).bar
      = some (clip_value (some 50)) ∧
    ((set_bar_value (set_ring_value initScreen 3 0 64 32).1 3 0 50).1 3 0).label_managed
      = false :=
  bar_on_ring_amended (set_ring_value initScreen 3 0 64 32).1 3 0 50
    (by decide) (by decide) (by decide)

/-! ## Claim C10: empty center text clears the override -/

/-- C10: storing the empty string as a ring's center text behaves exactly
like clearing it: `set_center_text` maps both `""` and `None` to no
override, and after a ring-value apply carrying an empty center text the
ring's center shows `max(1, inner)` in decimal rather than an empty
label. -/
theorem empty_center_text_clears (rg : RingState) (s : Screen)
    (r c outer inner : Int) (hb : inBoundsB r c = true) :
    ring_set_center_text rg (some "") = ring_set_center_text rg none ∧
    ((applyEntry s ⟨.RING_VALUE, r, c, .ringValue outer inner (some "")⟩).1 r c).ring.map
        RingState.center_override = some none ∧
    ((applyEntry s ⟨.RING_VALUE, r, c, .ringValue outer inner (some "")⟩).1 r c).ring.map
        ring_center_display = some (toString (max 1 (clip_value (some inner)))) := by
  have h1 := set_ring_value_ring s r c outer inner hb
  have h2 := set_ring_text_ring (set_ring_value s r c outer inner).1 r c (some "") hb
  rw [h1] at h2
  refine ⟨rfl, ?_, ?_⟩
  · show ((set_ring_text (set_ring_value s r c outer inner).1 r c (some "")).1 r c).ring.map
        RingState.center_override = some none
    rw [h2]
    simp [ring_set_center_text]
  · show ((set_ring_text (set_ring_value s r c outer inner).1 r c (some "")).1 r c).ring.map
        ring_center_display = some (toString (max 1 (clip_value (some inner))))
    rw [h2]
    simp [ring_set_center_text, ring_set_values, ring_center_display]

/-- Witness for C10 at concrete cell (1,0) with values 64/32. -/
theorem empty_center_text_clears_witness :
    ring_set_center_text (DualRing_init 260 "#606060" "#ffffff" "#000000" 10 27 "#e3e3e3")
        (some "") =
      ring_set_center_text (DualRing_init 260 "#606060" "#ffffff" "#000000" 10 27 "#e3e3e3")
        none ∧
    ((applyEntry initScreen ⟨.RING_VALUE, 1, 0, .ringValue 64 32 (some "")⟩).1 1 0).ring.map
        RingState.center_override = some none ∧
    ((applyEntry initScreen ⟨.RING_VALUE, 1, 0, .ringValue 64 32 (some "")⟩).1 1 0).ring.map
        ring_center_display = some (toString (max 1 (clip_value (some 32)))) :=
  empty_center_text_clears
    (DualRing_init 260 "#606060" "#ffffff" "#000000" 10 27 "#e3e3e3")
    initScreen 1 0 64 32 (by decide)

/-! ## Claim C7: the clamp invariant -/

theorem clip_value_bounds (v : Option Int) : 0 ≤ clip_value v ∧ clip_value v ≤ 127 := by
  cases v <;> simp only [clip_value] <;> omega

theorem ring_restyle_vals (rg : RingState) (fo fi bgc : Option String)
    (wo wi : Option Int) (tc : Option String) :
    (ring_restyle rg fo fi bgc wo wi tc).outer_val = rg.outer_val ∧
    (ring_restyle rg fo fi bgc wo wi tc).inner_val = rg.inner_val ∧
    (ring_restyle rg fo fi bgc wo wi tc).extra_arc1_val = rg.extra_arc1_val ∧
    (ring_restyle rg fo fi bgc wo wi tc).extra_arc2_val = rg.extra_arc2_val := by
  unfold ring_restyle
  rcases fo with _ | s1 <;> rcases fi with _ | s2 <;> rcases wo with _ | w1 <;>
    rcases wi with _ | w2 <;> rcases tc with _ | s3 <;> rcases bgc with _ | s4 <;>
      dsimp only <;> (try split_ifs) <;> simp

theorem ringClamped_init (size : Int) (fo fi bgc : String) (wo wi : Int) (tc : String) :
    ringClamped (DualRing_init size fo fi bgc wo wi tc) := by
  simp [ringClamped, DualRing_init]

theorem ringClamped_set_values (rg : RingState) (o i : Int) (h : ringClamped rg) :
    ringClamped (ring_set_values rg o i) := by
  obtain ⟨_, _, h3, h4⟩ := h
  exact ⟨clip_value_bounds (some o), clip_value_bounds (some i), h3, h4⟩

theorem ringClamped_set_extra (rg : RingState) (v1 v2 : Int) (h : ringClamped rg) :
    ringClamped (ring_set_extra_arcs rg v1 v2) := by
  obtain ⟨h1, h2, _, _⟩ := h
  exact ⟨h1, h2, clip_value_bounds (some v1), clip_value_bounds (some v2)⟩

theorem ringClamped_set_center (rg : RingState) (t : Option String) (h : ringClamped rg) :
    ringClamped (ring_set_center_text rg t) := h

theorem ringClamped_restyle (rg : RingState) (fo fi bgc : Option String)
    (wo wi : Option Int) (tc : Option String) (h : ringClamped rg) :
    ringClamped (ring_restyle rg fo fi bgc wo wi tc) := by
  obtain ⟨e1, e2, e3, e4⟩ := ring_restyle_vals rg fo fi bgc wo wi tc
  rw [ringClamped, e1, e2, e3, e4]
  exact h

theorem clampedCell_ring_some (cell : CellState) (rg : RingState)
    (hrg : ringClamped rg) (h : clampedCell cell) :
    clampedCell { cell with ring := some rg } := by
  refine ⟨h.1, ?_⟩
  intro rg' h'
  simp only [Option.some.injEq] at h'
  exact h' ▸ hrg

theorem clampedCell_bar_clip (cell : CellState) (x : Option Int) (h : clampedCell cell) :
    clampedCell { cell with bar := some (clip_value x) } := by
  refine ⟨?_, h.2⟩
  intro v hv
  simp only [Option.some.injEq] at hv
  exact hv ▸ clip_value_bounds x

theorem clamped_updateCell (s : Screen) (r c : Int) (f : CellState → CellState)
    (h : clampedScreen s) (hf : clampedCell (f (s r c))) :
    clampedScreen (updateCell s r c f) := by
  intro r' c'
  unfold updateCell
  split
  · next hc =>
    obtain ⟨h1, h2⟩ := hc
    subst h1; subst h2
    exact hf
  · exact h r' c'

theorem clamped_screen_of (s s' : Screen) (r c : Int) (h : clampedScreen s)
    (hother : ∀ r' c', ¬(r' = r ∧ c' = c) → s' r' c' = s r' c')
    (hcell : clampedCell (s' r c)) : clampedScreen s' := by
  intro r' c'
  by_cases hrc : r' = r ∧ c' = c
  · obtain ⟨u, v⟩ := hrc; subst u; subst v; exact hcell
  · rw [hother r' c' hrc]; exact h r' c'

theorem ensure_bars_other (s : Screen) (r c r' c' : Int) (hne : ¬(r' = r ∧ c' = c)) :
    (ensure_bars s r c).1 r' c' = s r' c' := by
  unfold ensure_bars
  by_cases hb : inBoundsB r c = false
  · rw [if_pos hb]
  rw [if_neg hb]
  by_cases hr : r ∉ BAR_ROWS
  · rw [if_pos hr]
  rw [if_neg hr]
  dsimp only
  unfold updateCell
  rw [if_neg hne]

theorem clamped_ensure_bars (s : Screen) (r c : Int) (h : clampedScreen s) :
    clampedScreen (ensure_bars s r c).1 := by
  by_cases hb : inBoundsB r c = false
  · unfold ensure_bars; rw [if_pos hb]; exact h
  by_cases hr : r ∉ BAR_ROWS
  · unfold ensure_bars; rw [if_neg hb, if_pos hr]; exact h
  have hb' : inBoundsB r c = true := by revert hb; cases inBoundsB r c <;> simp
  have hr' : r ∈ BAR_ROWS := not_not.mp hr
  obtain ⟨e1, e2, e3, e4, e5⟩ := ensure_bars_fields s r c hb' hr'
  refine clamped_screen_of s _ r c h (fun r' c' hne => ensure_bars_other s r c r' c' hne) ?_
  obtain ⟨hbar, hring⟩ := h r c
  refine ⟨?_, ?_⟩
  · intro v hv
    rw [e4] at hv
    by_cases h2 : (s r c).bar_holder = false
    · rw [if_pos h2] at hv
      simp only [Option.some.injEq] at hv
      omega
    · rw [if_neg h2] at hv
      exact hbar v hv
  · intro rg hrg
    rw [e1] at hrg
    exact hring rg hrg

theorem ensure_ring_bar (s : Screen) (r c : Int) (fo fi bgc : String)
    (sz wo wi : Int) (hb : inBoundsB r c = true) :
    ((ensure_ring s r c fo fi bgc sz wo wi).1 r c).bar = (s r c).bar := by
  have hb' : ¬ (inBoundsB r c = false) := by simp [hb]
  unfold ensure_ring
  rw [if_neg hb']
  cases hring : (s r c).ring <;>
    by_cases h1 : (s r c).label_managed = true <;>
      by_cases h2 : (s r c).ring_holder = false <;>
        simp [updateCell, hring, h1, h2]

theorem ensure_ring_other (s : Screen) (r c : Int) (fo fi bgc : String)
    (sz wo wi : Int) (r' c' : Int) (hne : ¬(r' = r ∧ c' = c)) :
    (ensure_ring s r c fo fi bgc sz wo wi).1 r' c' = s r' c' := by
  unfold ensure_ring
  by_cases hb : inBoundsB r c = false
  · rw [if_pos hb]
  rw [if_neg hb]
  cases hring : (s r c).ring <;>
    by_cases h1 : (s r c).label_managed = true <;>
      by_cases h2 : (s r c).ring_holder = false <;>
        simp [updateCell, hring, h1, h2, hne]

theorem clamped_ensure_ring (s : Screen) (r c : Int) (fo fi bgc : String)
    (sz wo wi : Int) (h : clampedScreen s) :
    clampedScreen (ensure_ring s r c fo fi bgc sz wo wi).1 := by
  by_cases hb : inBoundsB r c = false
  · unfold ensure_ring; rw [if_pos hb]; exact h
  have hb' : inBoundsB r c = true := by revert hb; cases inBoundsB r c <;> simp
  have hring := ensure_ring_ring s r c fo fi bgc sz wo wi hb'
  have hbar := ensure_ring_bar s r c fo fi bgc sz wo wi hb'
  refine clamped_screen_of s _ r c h
    (fun r' c' hne => ensure_ring_other s r c fo fi bgc sz wo wi r' c' hne) ?_
  obtain ⟨hbarS, hringS⟩ := h r c
  refine ⟨?_, ?_⟩
  · intro v hv; rw [hbar] at hv; exact hbarS v hv
  · intro rg hrg
    rw [hring] at hrg
    cases hsrc : (s r c).ring with
    | none =>
      rw [hsrc] at hrg
      simp only [Option.some.injEq] at hrg
      subst hrg
      exact ringClamped_init 260 fo fi bgc wo wi "#e3e3e3"
    | some rg0 =>
      rw [hsrc] at hrg
      simp only [Option.some.injEq] at hrg
      subst hrg
      exact ringClamped_restyle rg0 (some fo) (some fi) (some bgc)
        (some wo) (some wi) none (hringS rg0 hsrc)

theorem set_bar_value_other (s : Screen) (r c v r' c' : Int)
    (hne : ¬(r' = r ∧ c' = c)) :
    (set_bar_value s r c v).1 r' c' = s r' c' := by
  unfold set_bar_value
  by_cases hb : inBoundsB r c = false
  · rw [if_pos hb]
  rw [if_neg hb]
  by_cases hr : r ∉ BAR_ROWS
  · rw [if_pos hr]
  rw [if_neg hr]
  dsimp only
  cases hbar : ((ensure_bars s r c).1 r c).bar <;>
    simp [hbar, updateCell, hne, ensure_bars_other s r c r' c' hne]

theorem clamped_set_bar_value (s : Screen) (r c v : Int) (h : clampedScreen s) :
    clampedScreen (set_bar_value s r c v).1 := by
  unfold set_bar_value
  by_cases hb : inBoundsB r c = false
  · rw [if_pos hb]; exact h
  rw [if_neg hb]
  by_cases hr : r ∉ BAR_ROWS
  · rw [if_pos hr]; exact h
  rw [if_neg hr]
  dsimp only
  have hpre := clamped_ensure_bars s r c h
  cases hbar : ((ensure_bars s r c).1 r c).bar with
  | none => simpa [hbar] using hpre
  | some b0 =>
    simp only [hbar]
    exact clamped_updateCell _ r c _ hpre
      (clampedCell_bar_clip ((ensure_bars s r c).1 r c) (some v) (hpre r c))

theorem set_ring_value_other (s : Screen) (r c o i r' c' : Int)
    (hne : ¬(r' = r ∧ c' = c)) :
    (set_ring_value s r c o i).1 r' c' = s r' c' := by
  unfold set_ring_value
  by_cases hb : inBoundsB r c = false
  · rw [if_pos hb]
  rw [if_neg hb]
  dsimp only
  cases hsrc : (s r c).ring with
  | none =>
    simp only [hsrc]
    cases hpre : ((ensure_ring s r c "#606060" "#ffffff" "#000000" 280
        RING_OUTER_ARC_WIDTH RING_INNER_ARC_WIDTH).1 r c).ring <;>
      simp [hpre, updateCell, hne,
        ensure_ring_other s r c "#606060" "#ffffff" "#000000" 280
          RING_OUTER_ARC_WIDTH RING_INNER_ARC_WIDTH r' c' hne]
  | some rg =>
    simp [hsrc, updateCell, hne]

theorem set_ring_value_bar (s : Screen) (r c o i : Int) (hb : inBoundsB r c = true) :
    ((set_ring_value s r c o i).1 r c).bar = (s r c).bar := by
  have hb' : ¬ (inBoundsB r c = false) := by simp [hb]
  unfold set_ring_value
  rw [if_neg hb']
  dsimp only
  cases hsrc : (s r c).ring with
  | none =>
    have he := ensure_ring_ring s r c "#606060" "#ffffff" "#000000" 280
      RING_OUTER_ARC_WIDTH RING_INNER_ARC_WIDTH hb
    have heb := ensure_ring_bar s r c "#606060" "#ffffff" "#000000" 280
      RING_OUTER_ARC_WIDTH RING_INNER_ARC_WIDTH hb
    rw [hsrc] at he
    simp [hsrc, he, updateCell, heb]
  | some rg =>
    simp [hsrc, updateCell]

theorem clamped_set_ring_value (s : Screen) (r c o i : Int) (h : clampedScreen s) :
    clampedScreen (set_ring_value s r c o i).1 := by
  by_cases hb : inBoundsB r c = false
  · unfold set_ring_value; rw [if_pos hb]; exact h
  have hb' : inBoundsB r c = true := by revert hb; cases inBoundsB r c <;> simp
  have hring := set_ring_value_ring s r c o i hb'
  have hbar := set_ring_value_bar s r c o i hb'
  refine clamped_screen_of s _ r c h
    (fun r' c' hne => set_ring_value_other s r c o i r' c' hne) ?_
  obtain ⟨hbarS, hringS⟩ := h r c
  refine ⟨?_, ?_⟩
  · intro v hv; rw [hbar] at hv; exact hbarS v hv
  · intro rg hrg
    rw [hring] at hrg
    simp only [Option.some.injEq] at hrg
    subst hrg
    apply ringClamped_set_values
    cases hsrc : (s r c).ring with
    | none =>
      simp only [hsrc]
      exact ringClamped_init 260 "#606060" "#ffffff" "#000000"
        RING_OUTER_ARC_WIDTH RING_INNER_ARC_WIDTH "#e3e3e3"
    | some rg0 =>
      simp only [hsrc]
      exact hringS rg0 hsrc

theorem set_ring_text_other (s : Screen) (r c : Int) (t : Option String)
    (r' c' : Int) (hne : ¬(r' = r ∧ c' = c)) :
    (set_ring_text s r c t).1 r' c' = s r' c' := by
  unfold set_ring_text
  by_cases hb : inBoundsB r c = false
  · rw [if_pos hb]
  rw [if_neg hb]
  dsimp only
  cases hsrc : (s r c).ring with
  | none =>
    simp only [hsrc]
    cases hpre : ((ensure_ring s r c "#606060" "#ffffff" "#000000" 280
        RING_OUTER_ARC_WIDTH RING_INNER_ARC_WIDTH).1 r c).ring <;>
      simp [hpre, updateCell, hne,
        ensure_ring_other s r c "#606060" "#ffffff" "#000000" 280
          RING_OUTER_ARC_WIDTH RING_INNER_ARC_WIDTH r' c' hne]
  | some rg =>
    simp [hsrc, updateCell, hne]

theorem set_ring_text_bar (s : Screen) (r c : Int) (t : Option String)
    (hb : inBoundsB r c = true) :
    ((set_ring_text s r c t).1 r c).bar = (s r c).bar := by
  have hb' : ¬ (inBoundsB r c = false) := by simp [hb]
  unfold set_ring_text
  rw [if_neg hb']
  dsimp only
  cases hsrc : (s r c).ring with
  | none =>
    have he := ensure_ring_ring s r c "#606060" "#ffffff" "#000000" 280
      RING_OUTER_ARC_WIDTH RING_INNER_ARC_WIDTH hb
    have heb := ensure_ring_bar s r c "#606060" "#ffffff" "#000000" 280
      RING_OUTER_ARC_WIDTH RING_INNER_ARC_WIDTH hb
    rw [hsrc] at he
    simp [hsrc, he, updateCell, heb]
  | some rg =>
    simp [hsrc, updateCell]

theorem clamped_set_ring_text (s : Screen) (r c : Int) (t : Option String)
    (h : clampedScreen s) :
    clampedScreen (set_ring_text s r c t).1 := by
  by_cases hb : inBoundsB r c = false
  · unfold set_ring_text; rw [if_pos hb]; exact h
  have hb' : inBoundsB r c = true := by revert hb; cases inBoundsB r c <;> simp
  have hring := set_ring_text_ring s r c t hb'
  have hbar := set_ring_text_bar s r c t hb'
  refine clamped_screen_of s _ r c h
    (fun r' c' hne => set_ring_text_other s r c t r' c' hne) ?_
  obtain ⟨hbarS, hringS⟩ := h r c
  refine ⟨?_, ?_⟩
  · intro v hv; rw [hbar] at hv; exact hbarS v hv
  · intro rg hrg
    rw [hring] at hrg
    simp only [Option.some.injEq] at hrg
    subst hrg
    apply ringClamped_set_center
    cases hsrc : (s r c).ring with
    | none =>
      simp only [hsrc]
      exact ringClamped_init 260 "#606060" "#ffffff" "#000000"
        RING_OUTER_ARC_WIDTH RING_INNER_ARC_WIDTH "#e3e3e3"
    | some rg0 =>
      simp only [hsrc]
      exact hringS rg0 hsrc

theorem set_ring_extra_ring (s : Screen) (r c v1 v2 : Int)
    (hb : inBoundsB r c = true) :
    ((set_ring_extra_arcs s r c v1 v2).1 r c).ring =
      some (ring_set_extra_arcs
        (match (s r c).ring with
         | none => DualRing_init 260 "#606060" "#ffffff" "#000000"
                     RING_OUTER_ARC_WIDTH RING_INNER_ARC_WIDTH "#e3e3e3"
         | some rg => rg) v1 v2) := by
  have hb' : ¬ (inBoundsB r c = false) := by simp [hb]
  unfold set_ring_extra_arcs
  rw [if_neg hb']
  cases hring : (s r c).ring with
  | none =>
    have he := ensure_ring_ring s r c "#606060" "#ffffff" "#000000" 280
      RING_OUTER_ARC_WIDTH RING_INNER_ARC_WIDTH hb
    rw [hring] at he
    simp only [hring, he, updateCell]
    simp
  | some rg =>
    simp only [hring, updateCell]
    simp [hring]

theorem set_ring_extra_other (s : Screen) (r c v1 v2 r' c' : Int)
    (hne : ¬(r' = r ∧ c' = c)) :
    (set_ring_extra_arcs s r c v1 v2).1 r' c' = s r' c' := by
  unfold set_ring_extra_arcs
  by_cases hb : inBoundsB r c = false
  · rw [if_pos hb]
  rw [if_neg hb]
  dsimp only
  cases hsrc : (s r c).ring with
  | none =>
    simp only [hsrc]
    cases hpre : ((ensure_ring s r c "#606060" "#ffffff" "#000000" 280
        RING_OUTER_ARC_WIDTH RING_INNER_ARC_WIDTH).1 r c).ring <;>
      simp [hpre, updateCell, hne,
        ensure_ring_other s r c "#606060" "#ffffff" "#000000" 280
          RING_OUTER_ARC_WIDTH RING_INNER_ARC_WIDTH r' c' hne]
  | some rg =>
    simp [hsrc, updateCell, hne]

theorem set_ring_extra_bar (s : Screen) (r c v1 v2 : Int) (hb : inBoundsB r c = true) :
    ((set_ring_extra_arcs s r c v1 v2).1 r c).bar = (s r c).bar := by
  have hb' : ¬ (inBoundsB r c = false) := by simp [hb]
  unfold set_ring_extra_arcs
  rw [if_neg hb']
  dsimp only
  cases hsrc : (s r c).ring with
  | none =>
    have he := ensure_ring_ring s r c "#606060" "#ffffff" "#000000" 280
      RING_OUTER_ARC_WIDTH RING_INNER_ARC_WIDTH hb
    have heb := ensure_ring_bar s r c "#606060" "#ffffff" "#000000" 280
      RING_OUTER_ARC_WIDTH RING_INNER_ARC_WIDTH hb
    rw [hsrc] at he
    simp [hsrc, he, updateCell, heb]
  | some rg =>
    simp [hsrc, updateCell]

theorem clamped_set_ring_extra (s : Screen) (r c v1 v2 : Int) (h : clampedScreen s) :
    clampedScreen (set_ring_extra_arcs s r c v1 v2).1 := by
  by_cases hb : inBoundsB r c = false
  · unfold set_ring_extra_arcs; rw [if_pos hb]; exact h
  have hb' : inBoundsB r c = true := by revert hb; cases inBoundsB r c <;> simp
  have hring := set_ring_extra_ring s r c v1 v2 hb'
  have hbar := set_ring_extra_bar s r c v1 v2 hb'
  refine clamped_screen_of s _ r c h
    (fun r' c' hne => set_ring_extra_other s r c v1 v2 r' c' hne) ?_
  obtain ⟨hbarS, hringS⟩ := h r c
  refine ⟨?_, ?_⟩
  · intro v hv; rw [hbar] at hv; exact hbarS v hv
  · intro rg hrg
    rw [hring] at hrg
    simp only [Option.some.injEq] at hrg
    subst hrg
    apply ringClamped_set_extra
    cases hsrc : (s r c).ring with
    | none =>
      simp only [hsrc]
      exact ringClamped_init 260 "#606060" "#ffffff" "#000000"
        RING_OUTER_ARC_WIDTH RING_INNER_ARC_WIDTH "#e3e3e3"
    | some rg0 =>
      simp only [hsrc]
      exact hringS rg0 hsrc

theorem clamped_set_ring_all (s : Screen) (r c o i : Int) (fo fi bgc : String)
    (sz wo wi : Int) (h : clampedScreen s) :
    clampedScreen (set_ring_all s r c o i fo fi bgc sz wo wi).1 := by
  unfold set_ring_all
  dsimp only
  exact clamped_set_ring_value _ r c o i (clamped_ensure_ring s r c fo fi bgc sz wo wi h)

theorem clampedCell_teardown (r c : Int) (cell : CellState) (h : clampedCell cell) :
    clampedCell (teardown_widgets r c cell).1 := by
  obtain ⟨hbar, hring⟩ := h
  unfold teardown_widgets
  dsimp only
  by_cases h1 : cell.ring.isSome = true <;>
    by_cases h2 : cell.bar_holder = true <;>
      by_cases h3 : cell.label_managed = false <;>
        simp [h1, h2, h3] <;>
          refine ⟨fun v hv => ?_, fun rg hrg => ?_⟩ <;>
            first
              | exact Option.noConfusion hv
              | exact Option.noConfusion hrg
              | exact hbar v hv
              | exact hring rg hrg

theorem clampedCell_stage_teardown (r c : Int) (text : Option String)
    (cell : CellState) (h : clampedCell cell) :
    clampedCell (set_cell_teardown r c text cell).1 := by
  unfold set_cell_teardown
  rcases text with _ | t
  · exact h
  · dsimp only
    split_ifs with ht
    · exact clampedCell_teardown r c cell h
    · exact h

theorem clampedCell_stage_text (r c : Int) (text : Option String)
    (cell : CellState) (h : clampedCell cell) :
    clampedCell (set_cell_text r c text cell).1 := by
  unfold set_cell_text
  rcases text with _ | t
  · exact h
  · dsimp only
    split_ifs with ht
    · exact ⟨h.1, h.2⟩
    · exact h

theorem clampedCell_stage_fg (r c : Int) (fg : Option String)
    (cell : CellState) (h : clampedCell cell) :
    clampedCell (set_cell_fg r c fg cell).1 := by
  unfold set_cell_fg
  rcases fg with _ | f
  · exact h
  · dsimp only
    split_ifs <;> exact ⟨h.1, h.2⟩

theorem clampedCell_stage_bg (r c : Int) (bg : Option String)
    (cell : CellState) (h : clampedCell cell) :
    clampedCell (set_cell_bg r c bg cell).1 := by
  unfold set_cell_bg
  rcases bg with _ | b
  · exact h
  · dsimp only
    split_ifs <;> exact ⟨h.1, h.2⟩

theorem clampedCell_stage_align (r c : Int) (align : Option String)
    (cell : CellState) (h : clampedCell cell) :
    clampedCell (set_cell_align r c align cell).1 := by
  unfold set_cell_align
  rcases align with _ | a
  · exact h
  · dsimp only
    split_ifs <;> exact ⟨h.1, h.2⟩

theorem clamped_set_cell (s : Screen) (r c : Int) (text fg bg align : Option String)
    (h : clampedScreen s) :
    clampedScreen (set_cell s r c text fg bg align).1 := by
  unfold set_cell
  by_cases hb : inBoundsB r c = false
  · rw [if_pos hb]; exact h
  rw [if_neg hb]
  dsimp only
  refine clamped_updateCell s r c _ h ?_
  exact clampedCell_stage_align r c align _
    (clampedCell_stage_bg r c bg _
      (clampedCell_stage_fg r c fg _
        (clampedCell_stage_text r c text _
          (clampedCell_stage_teardown r c text _ (h r c)))))

theorem clamped_applyEntry (s : Screen) (e : Entry) (h : clampedScreen s) :
    clampedScreen (applyEntry s e).1 := by
  cases hp : e.payload with
  | bar v =>
    simp only [applyEntry, hp]
    exact clamped_set_bar_value s e.r e.c v h
  | bgCell bgc =>
    simp only [applyEntry, hp]
    exact clamped_set_cell s e.r e.c none none (some bgc) none h
  | alignCell a =>
    simp only [applyEntry, hp]
    exact clamped_set_cell s e.r e.c none none none (some a) h
  | setCell t f bgc a =>
    simp only [applyEntry, hp]
    exact clamped_set_cell s e.r e.c (some t) (some f) (some bgc) a h
  | ringStyle fo fi bgc sz wo wi =>
    simp only [applyEntry, hp, set_ring_style]
    exact clamped_ensure_ring s e.r e.c fo fi bgc sz wo wi h
  | ringValue o i t =>
    cases t with
    | none =>
      simp only [applyEntry, hp]
      exact clamped_set_ring_value s e.r e.c o i h
    | some tt =>
      simp only [applyEntry, hp]
      exact clamped_set_ring_text _ e.r e.c (some tt)
        (clamped_set_ring_value s e.r e.c o i h)
  | ringSet o i fo fi bgc sz wo wi =>
    simp only [applyEntry, hp]
    exact clamped_set_ring_all s e.r e.c o i fo fi bgc sz wo wi h
  | arc v1 v2 =>
    simp only [applyEntry, hp]
    exact clamped_set_ring_extra s e.r e.c v1 v2 h

theorem clamped_runEntries (entries : List Entry) :
    ∀ s, clampedScreen s → clampedScreen (runEntries s entries) := by
  induction entries with
  | nil => intro s h; exact h
  | cons e es ih =>
    intro s h
    simp only [runEntries, List.foldl_cons]
    exact ih _ (clamped_applyEntry s e h)

theorem clamped_initScreen : clampedScreen initScreen := by
  intro r c
  refine ⟨fun v hv => ?_, fun rg hrg => ?_⟩
  · exact Option.noConfusion hv
  · exact Option.noConfusion hrg

/-- C7 counterexample: the claim's clause "any other stored numeric
attribute" fails — applying `RING 0 1 #aaa #bbb #000 280 500 900` on a
fresh screen stores the ring widths unclamped (`restyle`/`__init__` do
`int(w)` with no clamp, here `w_outer = 500`) and stores
`display_size = 260`; both lie outside `[0, 127]`. -/
theorem ring_width_unclamped_counterexample :
    (((applyEntry initScreen ⟨.RING_STYLE, 1, 0,
        .ringStyle "#aaa" "#bbb" "#000" 280 500 900⟩).1 1 0).ring.map RingState.w_outer)
      = some 500 ∧
    (((applyEntry initScreen ⟨.RING_STYLE, 1, 0,
        .ringStyle "#aaa" "#bbb" "#000" 280 500 900⟩).1 1 0).ring.map RingState.display_size)
      = some 260 ∧
    ¬ ((500 : Int) ≤ 127) ∧ ¬ ((260 : Int) ≤ 127) :=
  ⟨by decide, by decide, by decide, by decide⟩

/-- C7 amended: the clamp covers exactly the stored command values — the
bar value and the four ring values (outer, inner, extra1, extra2): for any
sequence of applied commands starting from the fresh screen each of them
lies in `[0, 127]`; values above 127 are clamped to 127, values below 0 to
0, and a non-integer or missing value is stored as 0.  The ring style
attributes (display size, width_outer, width_inner) are stored without
clamping. -/
theorem values_clamped :
    (∀ (entries : List Entry) (r c : Int),
        clampedCell (runEntries initScreen entries r c)) ∧
    (∀ v : Int, 127 < v → clip_value (some v) = 127) ∧
    (∀ v : Int, v < 0 → clip_value (some v) = 0) ∧
    clip_value none = 0 := by
  refine ⟨?_, ?_, ?_, rfl⟩
  · intro entries r c
    exact clamped_runEntries entries initScreen clamped_initScreen r c
  · intro v hv
    simp only [clip_value]
    omega
  · intro v hv
    simp only [clip_value]
    omega

/-- Witness for C7: the clamp invariant after `BAR 3 0 9999`, and the
concrete clamping of 9999 and -5 (spec scenario 4). -/
theorem values_clamped_witness :
    clampedCell (runEntries initScreen [⟨.BAR, 3, 0, .bar 9999⟩] 3 0) ∧
    clip_value (some 9999) = 127 ∧ clip_value (some (-5)) = 0 :=
  ⟨values_clamped.1 [⟨.BAR, 3, 0, .bar 9999⟩] 3 0,
   values_clamped.2.1 9999 (by decide), values_clamped.2.2.1 (-5) (by decide)⟩

end PatchDisplay
